import Mathlib

/-!
# Planting-Syrup: tile entities, their effect triggers, fields and saved resource links

A shallow embedding of `Source/Syrup/Tiles/Plant.cpp`, `Plant.h`,
`Source/Syrup/Tiles/Trash.cpp`, `Source/Syrup/Tiles/Tile.cpp`,
`Source/Syrup/Tiles/Effects/ApplyField.cpp` and
`Source/Syrup/Systems/SyrupSaveGame.cpp`.

Conventions of the embedding.

* C++ `int` values (health, ranges, energy, costs) are integers. Where the code
  computes an `int` that can leave the 32-bit range for operands in range (the
  Health of `ReceiveDamage`, the counter of `BeginPlay`), the result is wrapped
  around as two's-complement arithmetic does (`WrapInt32`). The other `int`
  operations (`max`, the decrement of a positive counter, the debit of a cost
  that the reserve covers, a strength plus or minus 1) are on integers as such.
* `TSet<FIntPoint>` is `Finset FIntPoint`; `Difference`, `Intersect` and `IsEmpty`
  are set difference, intersection and comparison with the empty set.
* A member function that mutates the actor returns the new actor state together
  with the list of observable events it caused, in the order they happened.
  The events are the calls that leave the actor: `ActivateEffect` on one of its
  effect components, a `Broadcast` on the game mode's trigger delegate, the
  base-class `Destroyed`, and `SpawnActor` on the world.
* The effect components of an actor are identified by their index in the array
  `GetComponents(UTileEffect::StaticClass(), ...)` fills.
* `UGridLibrary` is not part of the sources at hand; the functions of it that
  the tile code calls are taken as parameters (`UGridLibrary` below).
* Mesh and collision-response calls and the Blueprint event `OnDamageRecived`
  have no effect on the modelled state and are left out.
* A `TMap<EFieldType, int>` is a function from field types to optional strengths.
* Tiles and ground planes that a field effect touches are named by handle
  (a number); the calls of one `Affect` or `Unaffect` are recorded per actor.
-/

namespace Syrup

/-! ## Data model -/

/-- A grid cell, `FIntPoint`. -/
abbrev FIntPoint := Int × Int

/-- The trigger types of `ETileEffectTriggerType` that the sources name; the
declaration of the enumeration is not among them, so `Other` stands for every
further enumerator. -/
inductive ETileEffectTriggerType
  | OnActivated
  | OnDeactivated
  | PlantsGrow
  | PlayerTurn
  | PlantSpawned
  | PlantKilled
  | TrashSpawned
  | TrashPickedUp
  | Other (n : Nat)
  deriving DecidableEq

/-- Modelled from the spec: the direction of a grid transform, whose declaration
(`EGridDirection` in the grid library) is missing; the spec gives four cardinal
values. -/
inductive EGridDirection
  | North
  | East
  | South
  | West
  deriving DecidableEq

/-- Modelled from the spec: `FGridTransform`, a location and a direction. -/
structure FGridTransform where
  Location : FIntPoint
  Direction : EGridDirection
  deriving DecidableEq

/-- The class of a plant as `APlant::SowPlant` reads it: the class flag
`CLASS_Abstract` and the two properties of the class default object it uses. -/
structure UPlantClass where
  bAbstract : Bool
  PlantingCost : Int
  Shape : Finset FIntPoint
  deriving DecidableEq

/-- A `TSubclassOf<APlant>`: `none` is the null class. -/
abbrev TSubclassOfAPlant := Option UPlantClass

/-- The calls that leave an actor, in the order the code makes them. -/
inductive Event
  | Broadcast (TriggerType : ETileEffectTriggerType) (Locations : Finset FIntPoint)
  | ActivateEffect (Component : Nat) (TriggerType : ETileEffectTriggerType)
      (Locations : Finset FIntPoint)
  | SuperDestroyed
  | SpawnActor (PlantClass : UPlantClass) (Transform : FGridTransform)
  deriving DecidableEq

/-- The functions of `UGridLibrary` the tile code calls. `OverlapShape` is the
Boolean the query returns for the world at the time of the call (whether the
shape overlaps a tile on the queried channel). -/
structure UGridLibrary where
  ScaleShapeUp : Finset FIntPoint → Int → Finset FIntPoint
  TransformShape : Finset FIntPoint → FGridTransform → Finset FIntPoint
  OverlapShape : Finset FIntPoint → Bool

/-- The state of a plant: the member variables of `Plant.h` the modelled code
reads or writes, the value of `GetSubTileLocations()` (no modelled operation
moves the actor or changes its shape) and the number of its `UTileEffect`
components. -/
structure APlant where
  bIsFinishedPlanting : Bool
  Health : Int
  TimeUntilGrown : Int
  Range : Int
  SubTileLocations : Finset FIntPoint
  NumEffectComponents : Nat
  deriving DecidableEq

/-- The state of a trash: `bActive`, `Range`, `PickUpCost`, the value of
`GetSubTileLocations()`, the number of its `UTileEffect` components, and the
engine flag `bActorIsBeingDestroyed` that `AActor::Destroy` sets. -/
structure ATrash where
  bActive : Bool
  Range : Int
  PickUpCost : Int
  SubTileLocations : Finset FIntPoint
  NumEffectComponents : Nat
  bActorIsBeingDestroyed : Bool
  deriving DecidableEq

/-! ## Shared helpers -/

/-- The values of a 32-bit C++ `int`. -/
def IsInt32 (x : Int) : Prop := -2147483648 ≤ x ∧ x ≤ 2147483647

/-- The 32-bit `int` that holds an arithmetic result: two's-complement
wrap-around into the range from -2147483648 to 2147483647. -/
def WrapInt32 (x : Int) : Int := (x + 2147483648) % 4294967296 - 2147483648

/-- The function `TSet::IsEmpty`. -/
def IsEmpty (S : Finset FIntPoint) : Bool := decide (S = ∅)

/-- The loop `for (EachComponent : Components) ActivateEffect(TriggerType, Triggerer,
TriggeredLocations)` over the `n` effect components of an actor. -/
def ActivateEffectOnComponents (n : Nat) (TriggerType : ETileEffectTriggerType)
    (TriggeredLocations : Finset FIntPoint) : List Event :=
  (List.range n).map (fun c => Event.ActivateEffect c TriggerType TriggeredLocations)

/-- The triggers one effect component received, in order: the `(type, cells)` of
every `ActivateEffect` call of the log made on component `c`. -/
def TriggersReceivedBy (c : Nat) : List Event → List (ETileEffectTriggerType × Finset FIntPoint)
  | [] => []
  | Event.ActivateEffect c' T S :: es =>
      if c' = c then (T, S) :: TriggersReceivedBy c es else TriggersReceivedBy c es
  | _ :: es => TriggersReceivedBy c es

/-- The cell sets one effect component received with triggers of type `T`, in order. -/
def LocationsReceivedBy (c : Nat) (T : ETileEffectTriggerType) (log : List Event) :
    List (Finset FIntPoint) :=
  ((TriggersReceivedBy c log).filter (fun e => decide (e.1 = T))).map Prod.snd

/-- The broadcasts of a log, in order. -/
def Broadcasts : List Event → List (ETileEffectTriggerType × Finset FIntPoint)
  | [] => []
  | Event.Broadcast T S :: es => (T, S) :: Broadcasts es
  | _ :: es => Broadcasts es

/-- The actors a log spawns, in order. -/
def SpawnedActors : List Event → List (UPlantClass × FGridTransform)
  | [] => []
  | Event.SpawnActor C T :: es => (C, T) :: SpawnedActors es
  | _ :: es => SpawnedActors es

/-! ## APlant (Plant.cpp, Plant.h) -/

/-- The function `APlant::IsGrown` (Plant.h:164). -/
def APlant.IsGrown (p : APlant) : Bool := decide (p.TimeUntilGrown ≤ 0)

/-- The function `APlant::GetEffectLocations` (Plant.cpp:248). -/
def APlant.GetEffectLocations (G : UGridLibrary) (p : APlant) : Finset FIntPoint :=
  G.ScaleShapeUp p.SubTileLocations p.Range

/-- The second statement of `APlant::ReceiveEffectTrigger` (Plant.cpp:229-240):
the guarded loop that hands the trigger to the effect components. -/
def APlant.ForwardEffectTrigger (G : UGridLibrary) (p : APlant)
    (TriggerType : ETileEffectTriggerType) (LocationsToTrigger : Finset FIntPoint) :
    List Event :=
  if (p.IsGrown || TriggerType == ETileEffectTriggerType.PlantsGrow) && decide (p.Health > 0) then
    let EffectedLocations := p.GetEffectLocations G
    let TriggeredLocations :=
      if IsEmpty LocationsToTrigger then EffectedLocations
      else LocationsToTrigger ∩ EffectedLocations
    ActivateEffectOnComponents p.NumEffectComponents TriggerType TriggeredLocations
  else []

/-- The function `APlant::Grow_Implementation` (Plant.cpp:166). Its nested call
`ReceiveEffectTrigger(OnActivated, nullptr, {})` is written as the forwarding
statement of that function: for `OnActivated` neither branch of its first
conditional applies (see `APlant.ReceiveEffectTrigger_of_not_grow_or_turn`). -/
def APlant.Grow_Implementation (G : UGridLibrary) (p : APlant) : APlant × List Event :=
  if p.bIsFinishedPlanting && !p.IsGrown then
    let p1 := { p with TimeUntilGrown := p.TimeUntilGrown - 1 }
    if p1.IsGrown then
      (p1, APlant.ForwardEffectTrigger G p1 ETileEffectTriggerType.OnActivated ∅)
    else (p1, [])
  else (p, [])

/-- The function `APlant::ReceiveEffectTrigger` (Plant.cpp:218). The triggerer is only
passed on to the effect components and is left out. -/
def APlant.ReceiveEffectTrigger (G : UGridLibrary) (p : APlant)
    (TriggerType : ETileEffectTriggerType) (LocationsToTrigger : Finset FIntPoint) :
    APlant × List Event :=
  let r : APlant × List Event :=
    if TriggerType = ETileEffectTriggerType.PlantsGrow then APlant.Grow_Implementation G p
    else if !p.bIsFinishedPlanting && TriggerType == ETileEffectTriggerType.PlayerTurn then
      ({ p with bIsFinishedPlanting := true }, [])
    else (p, [])
  (r.1, r.2 ++ APlant.ForwardEffectTrigger G r.1 TriggerType LocationsToTrigger)

/-- The call `GetTileEffectTriggerDelegate(GetWorld()).Broadcast(...)` made by a plant: the
broadcast itself, then the plant's own handler, which `BeginPlay` subscribed to
the delegate. The handlers of other actors are outside the model. -/
def APlant.Broadcast (G : UGridLibrary) (p : APlant) (TriggerType : ETileEffectTriggerType)
    (Locations : Finset FIntPoint) : APlant × List Event :=
  let r := APlant.ReceiveEffectTrigger G p TriggerType Locations
  (r.1, Event.Broadcast TriggerType Locations :: r.2)

/-- The function `APlant::ReceiveDamage` (Plant.cpp:85): new state, return value, events.
`Health -= FMath::Max(0, Amount)` is a 32-bit subtraction and wraps around. -/
def APlant.ReceiveDamage (G : UGridLibrary) (p : APlant) (Amount : Int) :
    APlant × Bool × List Event :=
  if !p.bIsFinishedPlanting then (p, false, [])
  else
    let OldHealth := p.Health
    let p1 := { p with Health := WrapInt32 (p.Health - max 0 Amount) }
    let bDead := decide (p1.Health ≤ 0)
    if bDead && decide (OldHealth > 0) then
      let b := APlant.Broadcast G p1 ETileEffectTriggerType.PlantKilled p1.SubTileLocations
      let d := APlant.ReceiveEffectTrigger G b.1 ETileEffectTriggerType.OnDeactivated ∅
      (d.1, bDead, b.2 ++ d.2)
    else (p1, bDead, [])

/-- The function `APlant::SetRange` (Plant.cpp:192). -/
def APlant.SetRange (G : UGridLibrary) (p : APlant) (NewRange : Int) : APlant × List Event :=
  let OldEffectLocations := p.GetEffectLocations G
  let NewEffectLocations := G.ScaleShapeUp p.SubTileLocations (max 0 NewRange)
  let DeactivatedLocations := OldEffectLocations \ NewEffectLocations
  let r1 : APlant × List Event :=
    if !IsEmpty DeactivatedLocations then
      APlant.ReceiveEffectTrigger G p ETileEffectTriggerType.OnDeactivated DeactivatedLocations
    else (p, [])
  let p2 := { r1.1 with Range := max 0 NewRange }
  let ActivatedLocations := NewEffectLocations \ OldEffectLocations
  let r2 : APlant × List Event :=
    if !IsEmpty ActivatedLocations then
      APlant.ReceiveEffectTrigger G p2 ETileEffectTriggerType.OnActivated ActivatedLocations
    else (p2, [])
  (r2.1, r1.2 ++ r2.2)

/-- The function `APlant::SowPlant(WorldContextObject, PlantClass, FGridTransform)`
(Plant.cpp:145): return value and events. -/
def APlant.SowPlant (G : UGridLibrary) (PlantClass : TSubclassOfAPlant)
    (Transform : FGridTransform) : Bool × List Event :=
  match PlantClass with
  | none => (false, [])
  | some C =>
    if C.bAbstract then (false, [])
    else if !G.OverlapShape (G.TransformShape C.Shape Transform) then
      (true, [Event.SpawnActor C Transform])
    else (false, [])

/-- The function `APlant::SowPlant(WorldContextObject, EnergyReserve, PlantClass, FGridTransform)`
(Plant.cpp:127): return value, new energy reserve and events; `none` when the
call dereferences a null pointer. `PlantClass.GetDefaultObject()` is null for the
null class, and line 130 reads `PlantingCost` through it. -/
def APlant.SowPlantWithEnergy (G : UGridLibrary) (EnergyReserve : Int)
    (PlantClass : TSubclassOfAPlant) (Transform : FGridTransform) :
    Option (Bool × Int × List Event) :=
  match PlantClass with
  | none => none
  | some DefaultPlant =>
    let NeededEnergy := DefaultPlant.PlantingCost
    if EnergyReserve ≥ NeededEnergy then
      let s := APlant.SowPlant G PlantClass Transform
      if s.1 then some (true, EnergyReserve - NeededEnergy, s.2)
      else some (false, EnergyReserve, s.2)
    else some (false, EnergyReserve, [])

/-- The function `APlant::SowPlant(WorldContextObject, PlantClass, FTransform)` (Plant.cpp:141),
for any type of world transforms and the library's conversion to grid transforms. -/
def APlant.SowPlantAtWorldTransform {FTransform : Type}
    (WorldTransformToGridTransform : FTransform → FGridTransform) (G : UGridLibrary)
    (PlantClass : TSubclassOfAPlant) (Transform : FTransform) : Bool × List Event :=
  APlant.SowPlant G PlantClass (WorldTransformToGridTransform Transform)

/-- The function `APlant::SowPlant(WorldContextObject, EnergyReserve, PlantClass, FTransform)`
(Plant.cpp:123). -/
def APlant.SowPlantWithEnergyAtWorldTransform {FTransform : Type}
    (WorldTransformToGridTransform : FTransform → FGridTransform) (G : UGridLibrary)
    (EnergyReserve : Int) (PlantClass : TSubclassOfAPlant) (Transform : FTransform) :
    Option (Bool × Int × List Event) :=
  APlant.SowPlantWithEnergy G EnergyReserve PlantClass (WorldTransformToGridTransform Transform)

/-- A run of consecutive triggers of one type delivered to a plant's handler, one
per cell set of the list. -/
def APlant.ReceiveEffectTriggers (G : UGridLibrary) (p : APlant)
    (TriggerType : ETileEffectTriggerType) : List (Finset FIntPoint) → APlant × List Event
  | [] => (p, [])
  | L :: Ls =>
    let r := APlant.ReceiveEffectTrigger G p TriggerType L
    let rs := APlant.ReceiveEffectTriggers G r.1 TriggerType Ls
    (rs.1, r.2 ++ rs.2)

/-- A run of consecutive `ReceiveDamage` calls on a plant: final state, the
return values and the events of all calls. -/
def APlant.ReceiveDamages (G : UGridLibrary) (p : APlant) :
    List Int → APlant × List Bool × List Event
  | [] => (p, [], [])
  | a :: as =>
    let r := APlant.ReceiveDamage G p a
    let rs := APlant.ReceiveDamages G r.1 as
    (rs.1, r.2.1 :: rs.2.1, r.2.2 ++ rs.2.2)

/-! ## ATrash (Trash.cpp) -/

/-- The function `ATrash::GetEffectLocations` (Trash.cpp:173). -/
def ATrash.GetEffectLocations (G : UGridLibrary) (t : ATrash) : Finset FIntPoint :=
  G.ScaleShapeUp t.SubTileLocations t.Range

/-- The function `ATrash::ReceiveEffectTrigger` (Trash.cpp:149). It changes no member
variable; the triggerer is only passed on to the effect components and is left out. -/
def ATrash.ReceiveEffectTrigger (G : UGridLibrary) (t : ATrash)
    (TriggerType : ETileEffectTriggerType) (LocationsToTrigger : Finset FIntPoint) :
    ATrash × List Event :=
  if t.bActive then
    let EffectedLocations := t.GetEffectLocations G
    let TriggeredLocations :=
      if IsEmpty LocationsToTrigger then EffectedLocations
      else LocationsToTrigger ∩ EffectedLocations
    if !IsEmpty TriggeredLocations then
      (t, ActivateEffectOnComponents t.NumEffectComponents TriggerType TriggeredLocations)
    else (t, [])
  else (t, [])

/-- The function `ATrash::OnFinishedFalling` (Trash.cpp:42). -/
def ATrash.OnFinishedFalling (G : UGridLibrary) (t : ATrash) : ATrash × List Event :=
  ATrash.ReceiveEffectTrigger G { t with bActive := true } ETileEffectTriggerType.OnActivated ∅

/-- The function `ATrash::Destroyed` (Trash.cpp:62). -/
def ATrash.Destroyed (G : UGridLibrary) (t : ATrash) : ATrash × List Event :=
  let r := ATrash.ReceiveEffectTrigger G t ETileEffectTriggerType.OnDeactivated ∅
  (r.1, r.2 ++ [Event.SuperDestroyed])

/-- The engine call `AActor::Destroy` on a trash: it runs the virtual `Destroyed` of the
actor and marks the actor as being destroyed. -/
def ATrash.Destroy (G : UGridLibrary) (t : ATrash) : ATrash × List Event :=
  let r := ATrash.Destroyed G t
  ({ r.1 with bActorIsBeingDestroyed := true }, r.2)

/-- The call `GetTileEffectTriggerDelegate(GetWorld()).Broadcast(...)` made by a trash: the
broadcast itself, then the trash's own handler, which `BeginPlay` subscribed to
the delegate. The handlers of other actors are outside the model. -/
def ATrash.Broadcast (G : UGridLibrary) (t : ATrash) (TriggerType : ETileEffectTriggerType)
    (Locations : Finset FIntPoint) : ATrash × List Event :=
  let r := ATrash.ReceiveEffectTrigger G t TriggerType Locations
  (r.1, Event.Broadcast TriggerType Locations :: r.2)

/-- The function `ATrash::PickUp` (Trash.cpp:97): new state, return value, new energy reserve
and events. -/
def ATrash.PickUp (G : UGridLibrary) (t : ATrash) (EnergyReserve : Int) :
    ATrash × Bool × Int × List Event :=
  if EnergyReserve ≥ t.PickUpCost then
    let b := ATrash.Broadcast G t ETileEffectTriggerType.TrashPickedUp t.SubTileLocations
    let d := ATrash.Destroy G b.1
    (d.1, true, EnergyReserve - t.PickUpCost, b.2 ++ d.2)
  else (t, false, EnergyReserve, [])

/-- The function `ATrash::SetRange_Implementation` (Trash.cpp:123). -/
def ATrash.SetRange_Implementation (G : UGridLibrary) (t : ATrash) (NewRange : Int) :
    ATrash × List Event :=
  let OldEffectLocations := t.GetEffectLocations G
  let NewEffectLocations := G.ScaleShapeUp t.SubTileLocations (max 0 NewRange)
  let DeactivatedLocations := OldEffectLocations \ NewEffectLocations
  let r1 : ATrash × List Event :=
    if !IsEmpty DeactivatedLocations then
      ATrash.ReceiveEffectTrigger G t ETileEffectTriggerType.OnDeactivated DeactivatedLocations
    else (t, [])
  let t2 := { r1.1 with Range := max 0 NewRange }
  let ActivatedLocations := NewEffectLocations \ OldEffectLocations
  let r2 : ATrash × List Event :=
    if !IsEmpty ActivatedLocations then
      ATrash.ReceiveEffectTrigger G t2 ETileEffectTriggerType.OnActivated ActivatedLocations
    else (t2, [])
  (r2.1, r1.2 ++ r2.2)

/-- One call made on a trash from outside: a trigger delivered to its handler or
a change of its range. -/
inductive ATrashCall
  | ReceiveEffectTrigger (TriggerType : ETileEffectTriggerType)
      (LocationsToTrigger : Finset FIntPoint)
  | SetRange (NewRange : Int)

/-- A run of calls on a trash: final state and the events of all calls. -/
def ATrash.Calls (G : UGridLibrary) (t : ATrash) : List ATrashCall → ATrash × List Event
  | [] => (t, [])
  | ATrashCall.ReceiveEffectTrigger T L :: cs =>
    let r := ATrash.ReceiveEffectTrigger G t T L
    let rs := ATrash.Calls G r.1 cs
    (rs.1, r.2 ++ rs.2)
  | ATrashCall.SetRange n :: cs =>
    let r := ATrash.SetRange_Implementation G t n
    let rs := ATrash.Calls G r.1 cs
    (rs.1, r.2 ++ rs.2)

/-! ## A sample grid library -/

/-- Modelled from the spec: `UGridLibrary::ScaleShapeUp`, whose body is not among
the sources. The base cells expanded by `Range` square rings: range 0 (or less)
returns the base cells, and one cell at range 1 gives the 9 cells around it. -/
def ScaleShapeUpSquare (BaseCells : Finset FIntPoint) (Range : Int) : Finset FIntPoint :=
  BaseCells.biUnion (fun c =>
    Finset.Icc (c.1 - Range.toNat) (c.1 + Range.toNat) ×ˢ
      Finset.Icc (c.2 - Range.toNat) (c.2 + Range.toNat))

/-- A grid library for concrete evaluation: square scaling, translation only (the
direction is ignored), and an empty world, where no shape overlaps a tile. -/
def SampleGridLibrary : UGridLibrary where
  ScaleShapeUp := ScaleShapeUpSquare
  TransformShape := fun S T => S.image (fun c => (c.1 + T.Location.1, c.2 + T.Location.2))
  OverlapShape := fun _ => false

/-- The sample library over a world in which one cell is occupied by a blocking tile. -/
def SampleGridLibraryBlocked (Occupied : FIntPoint) : UGridLibrary where
  ScaleShapeUp := ScaleShapeUpSquare
  TransformShape := fun S T => S.image (fun c => (c.1 + T.Location.1, c.2 + T.Location.2))
  OverlapShape := fun S => decide (Occupied ∈ S)

/-! ## Log predicates and sample actors -/

/-- Whether a log hands a trigger of type `T` to some effect component. -/
def Forwards (log : List Event) (T : ETileEffectTriggerType) : Prop :=
  ∃ c S, Event.ActivateEffect c T S ∈ log

/-- A plant that has finished planting, with one effect component, on the cell `(0,0)`. -/
def SamplePlant (Health TimeUntilGrown Range : Int) : APlant where
  bIsFinishedPlanting := true
  Health := Health
  TimeUntilGrown := TimeUntilGrown
  Range := Range
  SubTileLocations := {(0, 0)}
  NumEffectComponents := 1

/-- A trash with one effect component on the cell `(0,0)`, not being destroyed. -/
def SampleTrash (bActive : Bool) (Range PickUpCost : Int) : ATrash where
  bActive := bActive
  Range := Range
  PickUpCost := PickUpCost
  SubTileLocations := {(0, 0)}
  NumEffectComponents := 1
  bActorIsBeingDestroyed := false

/-- A concrete plant class of planting cost 2 on the cell `(0,0)`. -/
def SamplePlantClass : UPlantClass where
  bAbstract := false
  PlantingCost := 2
  Shape := {(0, 0)}

/-- The grid transform at a location, facing north. -/
def SampleTransform (x y : Int) : FGridTransform where
  Location := (x, y)
  Direction := EGridDirection.North

/-! ## APlant::BeginPlay and runs of triggers -/

/-- The function `APlant::BeginPlay` (Plant.cpp:21). `IsPlayerTurn` is the value that
`ASyrupGameMode::IsPlayerTurn(this)` returns at the time of the call; that function
is not among the sources. `Grow()` runs `Grow_Implementation`, and the broadcast of
`PlantSpawned` comes after the plant's handler is subscribed to the delegate.
`GetTimeUntilGrown() + 1` is a 32-bit addition and wraps around. -/
def APlant.BeginPlay (G : UGridLibrary) (IsPlayerTurn : Bool) (p : APlant) :
    APlant × List Event :=
  let p1 := { p with bIsFinishedPlanting := true }
  let p2 := { p1 with TimeUntilGrown := WrapInt32 (p1.TimeUntilGrown + 1) }
  let g := APlant.Grow_Implementation G p2
  let p3 := { g.1 with bIsFinishedPlanting := IsPlayerTurn }
  let b := APlant.Broadcast G p3 ETileEffectTriggerType.PlantSpawned p3.SubTileLocations
  (b.1, g.2 ++ b.2)

/-- A run of triggers of any types delivered to a plant's handler, one per
`(type, cells)` of the list. -/
def APlant.ReceiveTriggerSequence (G : UGridLibrary) (p : APlant) :
    List (ETileEffectTriggerType × Finset FIntPoint) → APlant × List Event
  | [] => (p, [])
  | TL :: TLs =>
    let r := APlant.ReceiveEffectTrigger G p TL.1 TL.2
    let rs := APlant.ReceiveTriggerSequence G r.1 TLs
    (rs.1, r.2 ++ rs.2)

/-! ## ATile field strengths (Tile.cpp) -/

/-- Modelled from the spec: a field type, `EFieldType`, whose declaration is not
among the sources; the enumerators are identified by their number. -/
structure EFieldType where
  Value : Nat
  deriving DecidableEq

/-- A `TMap<EFieldType, int>`: the stored strength of each field type, `none` for
a type that is not a key of the map. -/
abbrev TMapFieldStrengths := EFieldType → Option Int

/-- The function `TMap::Contains`. -/
def TMapFieldStrengths.Contains (m : TMapFieldStrengths) (Key : EFieldType) : Bool :=
  (m Key).isSome

/-- The function `TMap::FindRef`: the stored value, or the default `0`. -/
def TMapFieldStrengths.FindRef (m : TMapFieldStrengths) (Key : EFieldType) : Int :=
  (m Key).getD 0

/-- The function `TMap::Add`: sets or replaces the value of the key. -/
def TMapFieldStrengths.Add (m : TMapFieldStrengths) (Key : EFieldType) (Value : Int) :
    TMapFieldStrengths :=
  Function.update m Key (some Value)

/-- The function `TMap::Remove`. -/
def TMapFieldStrengths.Remove (m : TMapFieldStrengths) (Key : EFieldType) :
    TMapFieldStrengths :=
  Function.update m Key none

/-- The state of a tile that the field code touches: `FieldsToStrengths`. -/
structure ATile where
  FieldsToStrengths : TMapFieldStrengths

/-- The function `ATile::ApplyField` (Tile.cpp:106). -/
def ATile.ApplyField (t : ATile) (FieldType : EFieldType) : ATile :=
  if t.FieldsToStrengths.Contains FieldType then
    { t with FieldsToStrengths :=
        t.FieldsToStrengths.Add FieldType (t.FieldsToStrengths.FindRef FieldType + 1) }
  else
    { t with FieldsToStrengths := t.FieldsToStrengths.Add FieldType 1 }

/-- The function `ATile::RemoveField` (Tile.cpp:125). -/
def ATile.RemoveField (t : ATile) (FieldType : EFieldType) : ATile :=
  if t.FieldsToStrengths.Contains FieldType then
    let NewStrength := t.FieldsToStrengths.FindRef FieldType - 1
    if NewStrength > 0 then
      { t with FieldsToStrengths := t.FieldsToStrengths.Add FieldType NewStrength }
    else
      { t with FieldsToStrengths := t.FieldsToStrengths.Remove FieldType }
  else t

/-- One call made on a tile's field strengths. -/
inductive ATileFieldCall
  | ApplyField (FieldType : EFieldType)
  | RemoveField (FieldType : EFieldType)

/-- A run of field calls on a tile. -/
def ATile.FieldCalls (t : ATile) : List ATileFieldCall → ATile
  | [] => t
  | ATileFieldCall.ApplyField T :: cs => (t.ApplyField T).FieldCalls cs
  | ATileFieldCall.RemoveField T :: cs => (t.RemoveField T).FieldCalls cs

/-- The tile `OnConstruction` leaves: an empty `FieldsToStrengths` (Tile.cpp:48). -/
def ATile.Constructed : ATile where
  FieldsToStrengths := fun _ => none

/-- The specification of the field strengths, in the words of the spec: one
counter per field type. Applying a field adds 1 to the counter of its type. -/
def FieldCounters.Apply (c : EFieldType → Nat) (FieldType : EFieldType) : EFieldType → Nat :=
  Function.update c FieldType (c FieldType + 1)

/-- The specification of removing a field: the counter of its type goes down by 1
unless it is 0 already. -/
def FieldCounters.Remove (c : EFieldType → Nat) (FieldType : EFieldType) : EFieldType → Nat :=
  if c FieldType = 0 then c else Function.update c FieldType (c FieldType - 1)

/-- A run of field calls on the counters of the specification. -/
def FieldCounters.Calls (c : EFieldType → Nat) : List ATileFieldCall → EFieldType → Nat
  | [] => c
  | ATileFieldCall.ApplyField T :: cs => FieldCounters.Calls (FieldCounters.Apply c T) cs
  | ATileFieldCall.RemoveField T :: cs => FieldCounters.Calls (FieldCounters.Remove c T) cs

/-- The map that stands for given counters: a type is a key exactly when its
counter is > 0, and the stored strength is the counter. -/
def FieldCounters.ToMap (c : EFieldType → Nat) : TMapFieldStrengths :=
  fun T => if 0 < c T then some (c T : Int) else none

/-! ## UApplyField (ApplyField.cpp) -/

/-- The part of the world `UApplyField` reads and writes. Tiles and ground planes
are named by handle. `OverlapShape` is the set of tiles that
`UGridLibrary::OverlapShape(GetWorld(), Locations, ...)` puts in its out-parameter,
`GroundPlanes` are the `AGroundPlane` actors of the world, and
`GroundPlaneApplyField` is the value `AGroundPlane::ApplyField` returns; the grid
library and `AGroundPlane` are not among the sources. -/
structure UWorld where
  Tiles : Nat → ATile
  IsValidTile : Nat → Bool
  OverlapShape : Finset FIntPoint → Finset Nat
  GroundPlanes : Finset Nat
  IsValidGroundPlane : Nat → Bool
  GroundPlaneApplyField : Nat → EFieldType → Finset FIntPoint → Bool

/-- The state of a `UApplyField` component: its field type, the member
`EffectedLocations` of its base class `UTileEffect`, and its own sets of effected
tiles and ground planes. -/
structure UApplyField where
  FieldType : EFieldType
  EffectedLocations : Finset FIntPoint
  EffectedTiles : Finset Nat
  EffectedGroundPlanes : Finset Nat
  deriving DecidableEq

/-- The calls one `Affect` or `Unaffect` makes on other actors: the ground planes
whose `ApplyField` (or `RemoveField`) it calls, the cell set it passes to each of
them, and the tiles whose `ApplyField` (or `RemoveField`) it calls. The loops run
over sets, each actor is visited once, and calls on different actors do not
influence each other, so the calls are recorded per actor. -/
structure UApplyFieldCalls where
  GroundPlanes : Finset Nat
  GroundPlaneLocations : Finset FIntPoint
  Tiles : Finset Nat
  deriving DecidableEq

/-- Modelled from the spec: the base-class `UTileEffect::Affect`, whose body is not
among the sources; it records the cells into `EffectedLocations`. -/
def UTileEffect.Affect (e : UApplyField) (Locations : Finset FIntPoint) : UApplyField :=
  { e with EffectedLocations := e.EffectedLocations ∪ Locations }

/-- The function `UApplyField::Affect` (ApplyField.cpp:28): new world, new component
state, and the calls made. -/
def UApplyField.Affect (W : UWorld) (e : UApplyField) (Locations : Finset FIntPoint) :
    UWorld × UApplyField × UApplyFieldCalls :=
  let NewlyEffectedLocations := Locations \ e.EffectedLocations
  let ValidWorldPlanes := W.GroundPlanes.filter (fun g => W.IsValidGroundPlane g = true)
  let CalledPlanes :=
    if e.EffectedGroundPlanes = ∅ then ValidWorldPlanes
    else e.EffectedGroundPlanes.filter (fun g => W.IsValidGroundPlane g = true)
  let EffectedGroundPlanes :=
    if e.EffectedGroundPlanes = ∅ then
      ValidWorldPlanes.filter
        (fun g => W.GroundPlaneApplyField g e.FieldType NewlyEffectedLocations = true)
    else e.EffectedGroundPlanes
  let NewlyEffectedTiles := W.OverlapShape Locations
  let TilesToApply := NewlyEffectedTiles \ e.EffectedTiles
  let Tiles := fun i =>
    if i ∈ TilesToApply then (W.Tiles i).ApplyField e.FieldType else W.Tiles i
  let e1 := { e with EffectedGroundPlanes := EffectedGroundPlanes,
                     EffectedTiles := e.EffectedTiles ∪ TilesToApply }
  ({ W with Tiles := Tiles }, UTileEffect.Affect e1 Locations,
    { GroundPlanes := CalledPlanes, GroundPlaneLocations := NewlyEffectedLocations,
      Tiles := TilesToApply })

/-- The function `UApplyField::Unaffect` (ApplyField.cpp:84): new world, new
component state, and the calls made. -/
def UApplyField.Unaffect (W : UWorld) (e : UApplyField) :
    UWorld × UApplyField × UApplyFieldCalls :=
  let EffectedGroundPlanes :=
    e.EffectedGroundPlanes.filter (fun g => W.IsValidGroundPlane g = true)
  let CalledPlanes := EffectedGroundPlanes.filter (fun g => W.IsValidGroundPlane g = true)
  let TilesToRemove := e.EffectedTiles.filter (fun i => W.IsValidTile i = true)
  let Tiles := fun i =>
    if i ∈ TilesToRemove then (W.Tiles i).RemoveField e.FieldType else W.Tiles i
  ({ W with Tiles := Tiles },
    { e with EffectedGroundPlanes := EffectedGroundPlanes, EffectedTiles := ∅,
             EffectedLocations := ∅ },
    { GroundPlanes := CalledPlanes, GroundPlaneLocations := e.EffectedLocations,
      Tiles := TilesToRemove })

/-! ## USyrupSaveGame::StoreTileResourceData (SyrupSaveGame.cpp) -/

/-- An `FName`, by number. -/
abbrev FName := Nat

/-- Modelled from the spec: a resource sink as the save code reads it, the grid
location of its owner tile and its name. -/
structure UResourceSink where
  OwnerLocation : FIntPoint
  Name : FName
  deriving DecidableEq

/-- Modelled from the spec: a resource, which is allocated exactly when it is
linked to a sink. -/
structure UResource where
  LinkedSink : Option UResourceSink
  deriving DecidableEq

/-- Modelled from the spec: `UResource::IsAllocated`. -/
def UResource.IsAllocated (r : UResource) : Bool := r.LinkedSink.isSome

/-- Modelled from the spec: the per-resource-link record of a save, with a sink
location, a sink id and a faucet location. `FaucetLocation` and `SinkName` are the
member names the code uses. -/
structure FResourceSaveData where
  SinkLocation : FIntPoint
  SinkName : FName
  FaucetLocation : FIntPoint
  deriving DecidableEq

/-- A tile as `StoreTileResourceData` reads it: its grid location, and its
produced resources when the tile is an `IResourceFaucet` (`none` when the cast
fails). -/
structure ASavedTile where
  GridLocation : FIntPoint
  ProducedResources : Option (List UResource)

/-- The function `USyrupSaveGame::StoreTileResourceData` (SyrupSaveGame.cpp:105): the new
value of the array `ResourceData`. `MakeData` is the one-argument constructor of
`FResourceSaveData`, which is not among the sources. The local `DataToSave` is
carried from one resource of the loop to the next. `IsAllocated()` holds exactly
when the linked sink is set, so the test and `GetLinkedSink()` are one match. -/
def USyrupSaveGame.StoreTileResourceData (MakeData : FIntPoint → FResourceSaveData)
    (ResourceData : List FResourceSaveData) (Tile : ASavedTile) : List FResourceSaveData :=
  match Tile.ProducedResources with
  | none => ResourceData
  | some ProducedResources =>
    (ProducedResources.foldl
      (fun (s : FResourceSaveData × List FResourceSaveData) EachProducedResource =>
        match EachProducedResource.LinkedSink with
        | some LinkedSink =>
          let DataToSave := { s.1 with FaucetLocation := LinkedSink.OwnerLocation,
                                       SinkName := LinkedSink.Name }
          (DataToSave, s.2 ++ [DataToSave])
        | none => s)
      (MakeData Tile.GridLocation, ResourceData)).2

/-- Modelled from the spec: a one-argument constructor of `FResourceSaveData` that
stores the faucet's location and leaves the sink fields at their defaults. -/
def FResourceSaveData.OfFaucetLocation (Location : FIntPoint) : FResourceSaveData where
  SinkLocation := (0, 0)
  SinkName := 0
  FaucetLocation := Location

/-! ## Sample worlds -/

/-- A world of two ground planes and three constructed tiles: tile `i` lies on the
cell `(i, 0)`, every actor is valid, and a ground plane applies a field exactly
when it is given a cell. -/
def SampleWorld : UWorld where
  Tiles := fun _ => ATile.Constructed
  IsValidTile := fun _ => true
  OverlapShape := fun S => (Finset.range 3).filter (fun i => ((i : Int), (0 : Int)) ∈ S)
  GroundPlanes := {0, 1}
  IsValidGroundPlane := fun _ => true
  GroundPlaneApplyField := fun _ _ S => decide (S ≠ ∅)

/-- A component of field type 0 that has effected nothing. -/
def SampleApplyField : UApplyField where
  FieldType := ⟨0⟩
  EffectedLocations := ∅
  EffectedTiles := ∅
  EffectedGroundPlanes := ∅

/-! # Theorems -/

open ETileEffectTriggerType

/-! ## Basic facts about logs -/

theorem TriggersReceivedBy_append (c : Nat) (l₁ l₂ : List Event) :
    TriggersReceivedBy c (l₁ ++ l₂) = TriggersReceivedBy c l₁ ++ TriggersReceivedBy c l₂ := by
  induction l₁ with
  | nil => rfl
  | cons e es ih =>
    cases e with
    | ActivateEffect c' T S =>
      by_cases h : c' = c <;> simp [TriggersReceivedBy, h, ih]
    | Broadcast T S => simpa [TriggersReceivedBy] using ih
    | SuperDestroyed => simpa [TriggersReceivedBy] using ih
    | SpawnActor C T => simpa [TriggersReceivedBy] using ih

theorem TriggersReceivedBy_ActivateEffectOnComponents (c n : Nat) (T : ETileEffectTriggerType)
    (S : Finset FIntPoint) :
    TriggersReceivedBy c (ActivateEffectOnComponents n T S) = if c < n then [(T, S)] else [] := by
  induction n with
  | zero => simp [ActivateEffectOnComponents, TriggersReceivedBy]
  | succ n ih =>
    have hstep : ActivateEffectOnComponents (n + 1) T S =
        ActivateEffectOnComponents n T S ++ [Event.ActivateEffect n T S] := by
      simp [ActivateEffectOnComponents, List.range_succ]
    rw [hstep, TriggersReceivedBy_append, ih]
    by_cases h1 : c < n
    · have h2 : n ≠ c := by omega
      have h3 : c < n + 1 := by omega
      simp [TriggersReceivedBy, h1, h2, h3]
    · by_cases h2 : n = c
      · subst h2
        simp [TriggersReceivedBy]
      · have h3 : ¬ c < n + 1 := by omega
        simp [TriggersReceivedBy, h1, h2, h3]

theorem mem_ActivateEffectOnComponents (e : Event) (n : Nat) (T : ETileEffectTriggerType)
    (S : Finset FIntPoint) :
    e ∈ ActivateEffectOnComponents n T S ↔ ∃ c, c < n ∧ e = Event.ActivateEffect c T S := by
  simp [ActivateEffectOnComponents, eq_comm]

theorem IsEmpty_eq_true_iff (S : Finset FIntPoint) : IsEmpty S = true ↔ S = ∅ := by
  simp [IsEmpty]

theorem IsEmpty_eq_false_iff (S : Finset FIntPoint) : IsEmpty S = false ↔ S ≠ ∅ := by
  simp [IsEmpty]

/-! ## Basic facts about the plant's handler -/

theorem APlant.ReceiveEffectTrigger_of_not_grow_or_turn (G : UGridLibrary) (p : APlant)
    (T : ETileEffectTriggerType) (L : Finset FIntPoint)
    (h1 : T ≠ PlantsGrow) (h2 : T ≠ PlayerTurn) :
    APlant.ReceiveEffectTrigger G p T L = (p, APlant.ForwardEffectTrigger G p T L) := by
  simp [APlant.ReceiveEffectTrigger, h1, h2]

theorem APlant.ForwardEffectTrigger_of_grown_alive (G : UGridLibrary) (p : APlant)
    (T : ETileEffectTriggerType) (L : Finset FIntPoint)
    (hg : p.IsGrown = true) (hh : 0 < p.Health) :
    APlant.ForwardEffectTrigger G p T L =
      ActivateEffectOnComponents p.NumEffectComponents T
        (if L = ∅ then p.GetEffectLocations G else L ∩ p.GetEffectLocations G) := by
  simp [APlant.ForwardEffectTrigger, hg, hh, IsEmpty]

theorem APlant.ForwardEffectTrigger_of_dead (G : UGridLibrary) (p : APlant)
    (T : ETileEffectTriggerType) (L : Finset FIntPoint) (hh : p.Health ≤ 0) :
    APlant.ForwardEffectTrigger G p T L = [] := by
  have : ¬ 0 < p.Health := by omega
  simp [APlant.ForwardEffectTrigger, this]

theorem APlant.SetRange_events (G : UGridLibrary) (p : APlant) (NewRange : Int)
    (hg : p.IsGrown = true) (hh : 0 < p.Health) :
    (APlant.SetRange G p NewRange).2 =
      (if G.ScaleShapeUp p.SubTileLocations p.Range \
            G.ScaleShapeUp p.SubTileLocations (max 0 NewRange) = ∅ then []
        else ActivateEffectOnComponents p.NumEffectComponents OnDeactivated
          (G.ScaleShapeUp p.SubTileLocations p.Range \
            G.ScaleShapeUp p.SubTileLocations (max 0 NewRange))) ++
      (if G.ScaleShapeUp p.SubTileLocations (max 0 NewRange) \
            G.ScaleShapeUp p.SubTileLocations p.Range = ∅ then []
        else ActivateEffectOnComponents p.NumEffectComponents OnActivated
          (G.ScaleShapeUp p.SubTileLocations (max 0 NewRange) \
            G.ScaleShapeUp p.SubTileLocations p.Range)) := by
  have hg1 : p.TimeUntilGrown ≤ 0 := by simpa [APlant.IsGrown] using hg
  have hi : ∀ A B : Finset FIntPoint, A \ B ∩ A = A \ B := fun A B =>
    Finset.inter_eq_left.mpr Finset.sdiff_subset
  by_cases hD : G.ScaleShapeUp p.SubTileLocations p.Range \
      G.ScaleShapeUp p.SubTileLocations (max 0 NewRange) = ∅ <;>
  by_cases hA : G.ScaleShapeUp p.SubTileLocations (max 0 NewRange) \
      G.ScaleShapeUp p.SubTileLocations p.Range = ∅ <;>
  simp [APlant.SetRange, APlant.ReceiveEffectTrigger, APlant.ForwardEffectTrigger,
    APlant.IsGrown, APlant.GetEffectLocations, IsEmpty, hg1, hh, hD, hA, hi]

theorem Forwards_append (l₁ l₂ : List Event) (T : ETileEffectTriggerType) :
    Forwards (l₁ ++ l₂) T ↔ Forwards l₁ T ∨ Forwards l₂ T := by
  unfold Forwards
  constructor
  · rintro ⟨c, S, h⟩
    rcases List.mem_append.mp h with h | h
    · exact Or.inl ⟨c, S, h⟩
    · exact Or.inr ⟨c, S, h⟩
  · rintro (⟨c, S, h⟩ | ⟨c, S, h⟩)
    · exact ⟨c, S, List.mem_append.mpr (Or.inl h)⟩
    · exact ⟨c, S, List.mem_append.mpr (Or.inr h)⟩

theorem not_Forwards_nil (T : ETileEffectTriggerType) : ¬ Forwards [] T := by
  rintro ⟨c, S, h⟩
  cases h

theorem not_Forwards_ActivateEffectOnComponents (n : Nat) (T T' : ETileEffectTriggerType)
    (S : Finset FIntPoint) (h : T ≠ T') :
    ¬ Forwards (ActivateEffectOnComponents n T S) T' := by
  rintro ⟨c, S', hm⟩
  obtain ⟨c', _, he⟩ := (mem_ActivateEffectOnComponents _ _ _ _).mp hm
  injection he with _ hT _
  exact h hT.symm

theorem ScaleShapeUpSquare_monotone (S : Finset FIntPoint) : Monotone (ScaleShapeUpSquare S) := by
  intro a b hab
  have hn : (a.toNat : Int) ≤ (b.toNat : Int) := by
    have := Int.toNat_le_toNat hab
    exact_mod_cast this
  unfold ScaleShapeUpSquare
  apply Finset.biUnion_mono
  intro c _
  apply Finset.product_subset_product <;> apply Finset.Icc_subset_Icc <;> omega

theorem ScaleShapeUpSquare_superset (S : Finset FIntPoint) (r : Int) :
    S ⊆ ScaleShapeUpSquare S r := by
  intro c hc
  unfold ScaleShapeUpSquare
  rw [Finset.mem_biUnion]
  refine ⟨c, hc, ?_⟩
  rw [Finset.mem_product, Finset.mem_Icc, Finset.mem_Icc]
  refine ⟨⟨?_, ?_⟩, ⟨?_, ?_⟩⟩ <;> omega

theorem ATrash.SetRange_Implementation_events (G : UGridLibrary) (t : ATrash) (NewRange : Int)
    (ha : t.bActive = true) :
    (ATrash.SetRange_Implementation G t NewRange).2 =
      (if G.ScaleShapeUp t.SubTileLocations t.Range \
            G.ScaleShapeUp t.SubTileLocations (max 0 NewRange) = ∅ then []
        else ActivateEffectOnComponents t.NumEffectComponents OnDeactivated
          (G.ScaleShapeUp t.SubTileLocations t.Range \
            G.ScaleShapeUp t.SubTileLocations (max 0 NewRange))) ++
      (if G.ScaleShapeUp t.SubTileLocations (max 0 NewRange) \
            G.ScaleShapeUp t.SubTileLocations t.Range = ∅ then []
        else ActivateEffectOnComponents t.NumEffectComponents OnActivated
          (G.ScaleShapeUp t.SubTileLocations (max 0 NewRange) \
            G.ScaleShapeUp t.SubTileLocations t.Range)) := by
  have hi : ∀ A B : Finset FIntPoint, A \ B ∩ A = A \ B := fun A B =>
    Finset.inter_eq_left.mpr Finset.sdiff_subset
  by_cases hD : G.ScaleShapeUp t.SubTileLocations t.Range \
      G.ScaleShapeUp t.SubTileLocations (max 0 NewRange) = ∅ <;>
  by_cases hA : G.ScaleShapeUp t.SubTileLocations (max 0 NewRange) \
      G.ScaleShapeUp t.SubTileLocations t.Range = ∅ <;>
  simp [ATrash.SetRange_Implementation, ATrash.ReceiveEffectTrigger,
    ATrash.GetEffectLocations, IsEmpty, ha, hD, hA, hi]

/-- The part of a range-change log that monotone scaling rules out: shrinking the
range activates nothing and growing it deactivates nothing. -/
theorem range_change_log_monotone (n : Nat) (f : Int → Finset FIntPoint) (hf : Monotone f)
    (r1 r2 : Int) :
    (r2 < r1 → ¬ Forwards
      ((if f r1 \ f r2 = ∅ then [] else ActivateEffectOnComponents n OnDeactivated (f r1 \ f r2)) ++
        (if f r2 \ f r1 = ∅ then [] else ActivateEffectOnComponents n OnActivated (f r2 \ f r1)))
      OnActivated) ∧
    (r1 < r2 → ¬ Forwards
      ((if f r1 \ f r2 = ∅ then [] else ActivateEffectOnComponents n OnDeactivated (f r1 \ f r2)) ++
        (if f r2 \ f r1 = ∅ then [] else ActivateEffectOnComponents n OnActivated (f r2 \ f r1)))
      OnDeactivated) := by
  constructor
  · intro hlt
    have hsub : f r2 \ f r1 = ∅ := Finset.sdiff_eq_empty_iff_subset.mpr (hf hlt.le)
    rw [Forwards_append, if_pos hsub]
    rintro (h | h)
    · split at h
      · exact not_Forwards_nil _ h
      · exact not_Forwards_ActivateEffectOnComponents _ _ _ _ (by decide) h
    · exact not_Forwards_nil _ h
  · intro hlt
    have hsub : f r1 \ f r2 = ∅ := Finset.sdiff_eq_empty_iff_subset.mpr (hf hlt.le)
    rw [Forwards_append, if_pos hsub]
    rintro (h | h)
    · exact not_Forwards_nil _ h
    · split at h
      · exact not_Forwards_nil _ h
      · exact not_Forwards_ActivateEffectOnComponents _ _ _ _ (by decide) h

/-- C1: on a grown plant with Health > 0 (`APlant::SetRange`) and on an active
trash (`ATrash::SetRange_Implementation`), with `Effect r = ScaleShapeUp
SubTileLocations r`, old range `Range` and new clamped range `max 0 NewRange`, the
events of the call are exactly `OnDeactivated` with `Effect old \ Effect new` on
every effect component (nothing when that set is empty) followed by `OnActivated`
with `Effect new \ Effect old` on every effect component (nothing when that set is
empty); and when `ScaleShapeUp` is monotone in the range, a smaller new range
forwards no `OnActivated` at all and a larger new range no `OnDeactivated`. -/
theorem SetRange_forwards_range_delta (G : UGridLibrary) (p : APlant) (t : ATrash)
    (NewRange : Int) (hgrown : p.IsGrown = true) (hhealth : 0 < p.Health)
    (hactive : t.bActive = true) :
    ((APlant.SetRange G p NewRange).2 =
        (if G.ScaleShapeUp p.SubTileLocations p.Range \
              G.ScaleShapeUp p.SubTileLocations (max 0 NewRange) = ∅ then []
          else ActivateEffectOnComponents p.NumEffectComponents OnDeactivated
            (G.ScaleShapeUp p.SubTileLocations p.Range \
              G.ScaleShapeUp p.SubTileLocations (max 0 NewRange))) ++
        (if G.ScaleShapeUp p.SubTileLocations (max 0 NewRange) \
              G.ScaleShapeUp p.SubTileLocations p.Range = ∅ then []
          else ActivateEffectOnComponents p.NumEffectComponents OnActivated
            (G.ScaleShapeUp p.SubTileLocations (max 0 NewRange) \
              G.ScaleShapeUp p.SubTileLocations p.Range)) ∧
      (Monotone (G.ScaleShapeUp p.SubTileLocations) →
        (max 0 NewRange < p.Range → ¬ Forwards (APlant.SetRange G p NewRange).2 OnActivated) ∧
        (p.Range < max 0 NewRange →
          ¬ Forwards (APlant.SetRange G p NewRange).2 OnDeactivated))) ∧
    ((ATrash.SetRange_Implementation G t NewRange).2 =
        (if G.ScaleShapeUp t.SubTileLocations t.Range \
              G.ScaleShapeUp t.SubTileLocations (max 0 NewRange) = ∅ then []
          else ActivateEffectOnComponents t.NumEffectComponents OnDeactivated
            (G.ScaleShapeUp t.SubTileLocations t.Range \
              G.ScaleShapeUp t.SubTileLocations (max 0 NewRange))) ++
        (if G.ScaleShapeUp t.SubTileLocations (max 0 NewRange) \
              G.ScaleShapeUp t.SubTileLocations t.Range = ∅ then []
          else ActivateEffectOnComponents t.NumEffectComponents OnActivated
            (G.ScaleShapeUp t.SubTileLocations (max 0 NewRange) \
              G.ScaleShapeUp t.SubTileLocations t.Range)) ∧
      (Monotone (G.ScaleShapeUp t.SubTileLocations) →
        (max 0 NewRange < t.Range →
          ¬ Forwards (ATrash.SetRange_Implementation G t NewRange).2 OnActivated) ∧
        (t.Range < max 0 NewRange →
          ¬ Forwards (ATrash.SetRange_Implementation G t NewRange).2 OnDeactivated))) := by
  refine ⟨⟨APlant.SetRange_events G p NewRange hgrown hhealth, fun hm => ?_⟩,
    ⟨ATrash.SetRange_Implementation_events G t NewRange hactive, fun hm => ?_⟩⟩
  · rw [APlant.SetRange_events G p NewRange hgrown hhealth]
    exact range_change_log_monotone _ _ hm _ _
  · rw [ATrash.SetRange_Implementation_events G t NewRange hactive]
    exact range_change_log_monotone _ _ hm _ _

/-- Witness of C1: a grown plant of range 2 and an active trash of range 0, both
set to range 1 under square scaling: the plant deactivates the outer ring and
activates nothing, the trash activates the inner ring and deactivates nothing. -/
theorem SetRange_forwards_range_delta_witness :
    ((APlant.SetRange SampleGridLibrary (SamplePlant 1 0 2) 1).2 =
        [Event.ActivateEffect 0 OnDeactivated
          (ScaleShapeUpSquare {(0, 0)} 2 \ ScaleShapeUpSquare {(0, 0)} 1)] ∧
      ¬ Forwards (APlant.SetRange SampleGridLibrary (SamplePlant 1 0 2) 1).2 OnActivated) ∧
    ((ATrash.SetRange_Implementation SampleGridLibrary (SampleTrash true 0 3) 1).2 =
        [Event.ActivateEffect 0 OnActivated
          (ScaleShapeUpSquare {(0, 0)} 1 \ ScaleShapeUpSquare {(0, 0)} 0)] ∧
      ¬ Forwards (ATrash.SetRange_Implementation SampleGridLibrary (SampleTrash true 0 3) 1).2
        OnDeactivated) := by
  have h := SetRange_forwards_range_delta SampleGridLibrary (SamplePlant 1 0 2)
    (SampleTrash true 0 3) 1 (by decide) (by decide) (by decide)
  refine ⟨⟨by decide, ?_⟩, ⟨by decide, ?_⟩⟩
  · exact (h.1.2 (ScaleShapeUpSquare_monotone _)).1 (by decide)
  · exact (h.2.2 (ScaleShapeUpSquare_monotone _)).2 (by decide)

theorem LocationsReceivedBy_append (c : Nat) (T : ETileEffectTriggerType) (l₁ l₂ : List Event) :
    LocationsReceivedBy c T (l₁ ++ l₂) = LocationsReceivedBy c T l₁ ++ LocationsReceivedBy c T l₂ := by
  simp [LocationsReceivedBy, TriggersReceivedBy_append]

theorem LocationsReceivedBy_nil (c : Nat) (T : ETileEffectTriggerType) :
    LocationsReceivedBy c T [] = [] := rfl

theorem LocationsReceivedBy_ActivateEffectOnComponents (c n : Nat)
    (T T' : ETileEffectTriggerType) (S : Finset FIntPoint) (hc : c < n) :
    LocationsReceivedBy c T' (ActivateEffectOnComponents n T S) = if T = T' then [S] else [] := by
  unfold LocationsReceivedBy
  rw [TriggersReceivedBy_ActivateEffectOnComponents, if_pos hc]
  by_cases h : T = T' <;> simp [h]

/-- What one trigger of the two-trigger sequence contributes to a component. -/
theorem TriggersReceivedBy_range_change (c n : Nat) (hc : c < n) (D A : Finset FIntPoint) :
    TriggersReceivedBy c
      ((if D = ∅ then [] else ActivateEffectOnComponents n OnDeactivated D) ++
        (if A = ∅ then [] else ActivateEffectOnComponents n OnActivated A)) =
      (if D = ∅ then [] else [(OnDeactivated, D)]) ++
        (if A = ∅ then [] else [(OnActivated, A)]) := by
  rw [TriggersReceivedBy_append]
  by_cases hD : D = ∅ <;> by_cases hA : A = ∅ <;>
    simp [hD, hA, TriggersReceivedBy_ActivateEffectOnComponents, hc, TriggersReceivedBy]

/-- Counterexample to C2 as stated: it is not the case that every range change on
a grown living plant hands each effect component the two triggers `OnDeactivated`
(old-only cells) and `OnActivated` (new-only cells). Raising the range of a plant
on `(0,0)` from 0 to 1 under square scaling fires the single trigger `OnActivated`. -/
theorem SetRange_two_triggers_counterexample :
    ¬ (∀ (G : UGridLibrary) (p : APlant) (NewRange : Int),
        p.IsGrown = true → 0 < p.Health → max 0 NewRange ≠ p.Range →
        ∀ c, c < p.NumEffectComponents →
          TriggersReceivedBy c (APlant.SetRange G p NewRange).2 =
            [(OnDeactivated, G.ScaleShapeUp p.SubTileLocations p.Range \
                G.ScaleShapeUp p.SubTileLocations (max 0 NewRange)),
             (OnActivated, G.ScaleShapeUp p.SubTileLocations (max 0 NewRange) \
                G.ScaleShapeUp p.SubTileLocations p.Range)]) := by
  intro h
  have h1 := h SampleGridLibrary (SamplePlant 1 0 0) 1 (by decide) (by decide) (by decide) 0
    (by decide)
  have h2 : (TriggersReceivedBy 0 (APlant.SetRange SampleGridLibrary (SamplePlant 1 0 0) 1).2).length
      = 1 := by decide
  rw [h1] at h2
  exact absurd h2 (by decide)

/-- C2 (amended): a `SetRange` call on a grown living plant or on an active trash
hands every effect component at most two triggers, in this order: `OnDeactivated`
with the old-only cells exactly when there are old-only cells, then `OnActivated`
with the new-only cells exactly when there are new-only cells. A component
receives two triggers exactly when both differences are non-empty. -/
theorem SetRange_fires_nonempty_deltas_in_order (G : UGridLibrary) (p : APlant) (t : ATrash)
    (NewRange : Int) (hgrown : p.IsGrown = true) (hhealth : 0 < p.Health)
    (hactive : t.bActive = true) :
    (∀ c, c < p.NumEffectComponents →
      TriggersReceivedBy c (APlant.SetRange G p NewRange).2 =
        (if G.ScaleShapeUp p.SubTileLocations p.Range \
              G.ScaleShapeUp p.SubTileLocations (max 0 NewRange) = ∅ then []
          else [(OnDeactivated, G.ScaleShapeUp p.SubTileLocations p.Range \
              G.ScaleShapeUp p.SubTileLocations (max 0 NewRange))]) ++
        (if G.ScaleShapeUp p.SubTileLocations (max 0 NewRange) \
              G.ScaleShapeUp p.SubTileLocations p.Range = ∅ then []
          else [(OnActivated, G.ScaleShapeUp p.SubTileLocations (max 0 NewRange) \
              G.ScaleShapeUp p.SubTileLocations p.Range)]) ∧
      ((TriggersReceivedBy c (APlant.SetRange G p NewRange).2).length = 2 ↔
        G.ScaleShapeUp p.SubTileLocations p.Range \
            G.ScaleShapeUp p.SubTileLocations (max 0 NewRange) ≠ ∅ ∧
          G.ScaleShapeUp p.SubTileLocations (max 0 NewRange) \
            G.ScaleShapeUp p.SubTileLocations p.Range ≠ ∅)) ∧
    (∀ c, c < t.NumEffectComponents →
      TriggersReceivedBy c (ATrash.SetRange_Implementation G t NewRange).2 =
        (if G.ScaleShapeUp t.SubTileLocations t.Range \
              G.ScaleShapeUp t.SubTileLocations (max 0 NewRange) = ∅ then []
          else [(OnDeactivated, G.ScaleShapeUp t.SubTileLocations t.Range \
              G.ScaleShapeUp t.SubTileLocations (max 0 NewRange))]) ++
        (if G.ScaleShapeUp t.SubTileLocations (max 0 NewRange) \
              G.ScaleShapeUp t.SubTileLocations t.Range = ∅ then []
          else [(OnActivated, G.ScaleShapeUp t.SubTileLocations (max 0 NewRange) \
              G.ScaleShapeUp t.SubTileLocations t.Range)]) ∧
      ((TriggersReceivedBy c (ATrash.SetRange_Implementation G t NewRange).2).length = 2 ↔
        G.ScaleShapeUp t.SubTileLocations t.Range \
            G.ScaleShapeUp t.SubTileLocations (max 0 NewRange) ≠ ∅ ∧
          G.ScaleShapeUp t.SubTileLocations (max 0 NewRange) \
            G.ScaleShapeUp t.SubTileLocations t.Range ≠ ∅)) := by
  constructor
  · intro c hc
    rw [APlant.SetRange_events G p NewRange hgrown hhealth, TriggersReceivedBy_range_change c _ hc]
    refine ⟨rfl, ?_⟩
    by_cases hD : G.ScaleShapeUp p.SubTileLocations p.Range \
        G.ScaleShapeUp p.SubTileLocations (max 0 NewRange) = ∅ <;>
    by_cases hA : G.ScaleShapeUp p.SubTileLocations (max 0 NewRange) \
        G.ScaleShapeUp p.SubTileLocations p.Range = ∅ <;>
    simp [hD, hA]
  · intro c hc
    rw [ATrash.SetRange_Implementation_events G t NewRange hactive, TriggersReceivedBy_range_change c _ hc]
    refine ⟨rfl, ?_⟩
    by_cases hD : G.ScaleShapeUp t.SubTileLocations t.Range \
        G.ScaleShapeUp t.SubTileLocations (max 0 NewRange) = ∅ <;>
    by_cases hA : G.ScaleShapeUp t.SubTileLocations (max 0 NewRange) \
        G.ScaleShapeUp t.SubTileLocations t.Range = ∅ <;>
    simp [hD, hA]

/-- Witness of C2 (amended): a grown plant whose range goes from 0 to 1 and an
active trash whose range goes from 2 to 1, under square scaling; each hands its
effect component one trigger. -/
theorem SetRange_fires_nonempty_deltas_in_order_witness :
    TriggersReceivedBy 0 (APlant.SetRange SampleGridLibrary (SamplePlant 1 0 0) 1).2 =
        [(OnActivated, ScaleShapeUpSquare {(0, 0)} 1 \ {(0, 0)})] ∧
    TriggersReceivedBy 0
        (ATrash.SetRange_Implementation SampleGridLibrary (SampleTrash true 2 3) 1).2 =
        [(OnDeactivated, ScaleShapeUpSquare {(0, 0)} 2 \ ScaleShapeUpSquare {(0, 0)} 1)] := by
  have h := SetRange_fires_nonempty_deltas_in_order SampleGridLibrary (SamplePlant 1 0 0)
    (SampleTrash true 2 3) 1 (by decide) (by decide) (by decide)
  refine ⟨?_, ?_⟩
  · rw [(h.1 0 (by decide)).1]
    decide
  · rw [(h.2 0 (by decide)).1]
    decide

/-! ## Growth -/

/-- One `PlantsGrow` trigger on a living plant that has finished planting: the
new state and what an effect component receives as `OnActivated`. -/
theorem APlant.PlantsGrow_step (G : UGridLibrary) (p : APlant) (L : Finset FIntPoint)
    (hfin : p.bIsFinishedPlanting = true) (hhealth : 0 < p.Health) :
    (APlant.ReceiveEffectTrigger G p PlantsGrow L).1 =
        { p with TimeUntilGrown := if 1 ≤ p.TimeUntilGrown then p.TimeUntilGrown - 1
                                    else p.TimeUntilGrown } ∧
    ∀ c, c < p.NumEffectComponents →
      LocationsReceivedBy c OnActivated (APlant.ReceiveEffectTrigger G p PlantsGrow L).2 =
        if p.TimeUntilGrown = 1 then [G.ScaleShapeUp p.SubTileLocations p.Range] else [] := by
  obtain ⟨fin, health, tug, range, sub, n⟩ := p
  simp only at hfin hhealth
  subst hfin
  by_cases h0 : tug ≤ 0
  · have h1 : ¬ 1 ≤ tug := by omega
    have h2 : ¬ tug = 1 := by omega
    have h4 : ¬ 0 < tug := by omega
    refine ⟨by simp [APlant.ReceiveEffectTrigger, APlant.Grow_Implementation, APlant.IsGrown,
      h0, h1], fun c hc => ?_⟩
    simp only at hc
    simp [APlant.ReceiveEffectTrigger, APlant.Grow_Implementation, APlant.IsGrown,
      APlant.ForwardEffectTrigger, h0, h2, h4, hhealth,
      LocationsReceivedBy_ActivateEffectOnComponents, hc]
  · have h1 : 1 ≤ tug := by omega
    have h4 : 0 < tug := by omega
    by_cases h2 : tug = 1
    · subst h2
      refine ⟨by simp [APlant.ReceiveEffectTrigger, APlant.Grow_Implementation, APlant.IsGrown],
        fun c hc => ?_⟩
      simp only at hc
      simp [APlant.ReceiveEffectTrigger, APlant.Grow_Implementation, APlant.IsGrown,
        APlant.ForwardEffectTrigger, APlant.GetEffectLocations, IsEmpty, hhealth,
        LocationsReceivedBy_append, LocationsReceivedBy_ActivateEffectOnComponents, hc]
    · have h3 : ¬ tug ≤ 1 := by omega
      refine ⟨by simp [APlant.ReceiveEffectTrigger, APlant.Grow_Implementation, APlant.IsGrown,
        h0, h1, h3, h4], fun c hc => ?_⟩
      simp only at hc
      simp [APlant.ReceiveEffectTrigger, APlant.Grow_Implementation, APlant.IsGrown,
        APlant.ForwardEffectTrigger, h0, h2, h3, h4, hhealth,
        LocationsReceivedBy_ActivateEffectOnComponents, hc, LocationsReceivedBy_nil]

/-- The state after a run of `PlantsGrow` triggers on a living plant that has
finished planting: only the growth counter moves, down to 0 at most. -/
theorem APlant.PlantsGrow_run_state (G : UGridLibrary) (Ls : List (Finset FIntPoint)) :
    ∀ p : APlant, p.bIsFinishedPlanting = true → 0 < p.Health → 0 ≤ p.TimeUntilGrown →
      (APlant.ReceiveEffectTriggers G p PlantsGrow Ls).1 =
        { p with TimeUntilGrown := max 0 (p.TimeUntilGrown - Ls.length) } := by
  induction Ls with
  | nil =>
    intro p _ _ h0
    simp [APlant.ReceiveEffectTriggers, h0]
  | cons L Ls ih =>
    intro p hfin hhealth h0
    have hs := (APlant.PlantsGrow_step G p L hfin hhealth).1
    simp only [APlant.ReceiveEffectTriggers]
    rw [hs, ih { p with TimeUntilGrown := if 1 ≤ p.TimeUntilGrown then p.TimeUntilGrown - 1
      else p.TimeUntilGrown } hfin hhealth (by dsimp only; split <;> omega)]
    simp only [List.length_cons, Nat.cast_add, Nat.cast_one]
    congr 1
    split <;> omega

/-- What a run of `PlantsGrow` triggers hands an effect component as `OnActivated`. -/
theorem APlant.PlantsGrow_run_activated (G : UGridLibrary) (Ls : List (Finset FIntPoint)) :
    ∀ p : APlant, p.bIsFinishedPlanting = true → 0 < p.Health →
      ∀ c, c < p.NumEffectComponents →
        LocationsReceivedBy c OnActivated (APlant.ReceiveEffectTriggers G p PlantsGrow Ls).2 =
          if 1 ≤ p.TimeUntilGrown ∧ p.TimeUntilGrown ≤ Ls.length
          then [G.ScaleShapeUp p.SubTileLocations p.Range] else [] := by
  induction Ls with
  | nil =>
    intro p _ _ c _
    have : ¬ (1 ≤ p.TimeUntilGrown ∧ p.TimeUntilGrown ≤ 0) := by omega
    simp [APlant.ReceiveEffectTriggers, LocationsReceivedBy_nil, this]
  | cons L Ls ih =>
    intro p hfin hhealth c hc
    obtain ⟨hs, hl⟩ := APlant.PlantsGrow_step G p L hfin hhealth
    simp only [APlant.ReceiveEffectTriggers]
    rw [LocationsReceivedBy_append, hl c hc, hs,
      ih { p with TimeUntilGrown := if 1 ≤ p.TimeUntilGrown then p.TimeUntilGrown - 1
        else p.TimeUntilGrown } hfin hhealth c hc]
    simp only [List.length_cons, Nat.cast_add, Nat.cast_one]
    by_cases h1 : p.TimeUntilGrown = 1
    · have ha : ¬ (1 ≤ p.TimeUntilGrown - 1 ∧ p.TimeUntilGrown - 1 ≤ (Ls.length : Int)) := by omega
      have hb : 1 ≤ p.TimeUntilGrown ∧ p.TimeUntilGrown ≤ (Ls.length : Int) + 1 := by omega
      have hc1 : (1 : Int) ≤ p.TimeUntilGrown := by omega
      simp [h1, hc1, ha, hb]
    · by_cases h2 : 1 ≤ p.TimeUntilGrown
      · by_cases h3 : p.TimeUntilGrown ≤ (Ls.length : Int) + 1
        · have ha : 1 ≤ p.TimeUntilGrown - 1 ∧ p.TimeUntilGrown - 1 ≤ (Ls.length : Int) := by
            omega
          simp [h1, h2, h3, ha]
        · have ha : ¬ (1 ≤ p.TimeUntilGrown - 1 ∧ p.TimeUntilGrown - 1 ≤ (Ls.length : Int)) := by
            omega
          simp [h1, h2, h3, ha]
      · have ha : ¬ (1 ≤ p.TimeUntilGrown ∧ p.TimeUntilGrown ≤ (Ls.length : Int)) := by omega
        have hb : ¬ (1 ≤ p.TimeUntilGrown ∧ p.TimeUntilGrown ≤ (Ls.length : Int) + 1) := by omega
        simp [h1, h2, ha, hb]

/-- C3: a plant that has finished planting, with Health > 0 and TimeUntilGrown =
n >= 1, receives the consecutive `PlantsGrow` triggers `Ls` (k of them). Each
effect component then receives `OnActivated` exactly once if k >= n and not at
all if k < n, with the full effect location set `ScaleShapeUp SubTileLocations
Range`; and it is the n-th trigger that forwards it: the trigger delivered after
the triggers `Before` forwards `OnActivated` exactly when `Before` has n - 1
members. -/
theorem PlantsGrow_activates_once_at_nth (G : UGridLibrary) (p : APlant) (n : Int)
    (Ls : List (Finset FIntPoint)) (hfin : p.bIsFinishedPlanting = true)
    (hhealth : 0 < p.Health) (htime : p.TimeUntilGrown = n) (hn : 1 ≤ n) :
    ∀ c, c < p.NumEffectComponents →
      LocationsReceivedBy c OnActivated (APlant.ReceiveEffectTriggers G p PlantsGrow Ls).2 =
          (if n ≤ Ls.length then [G.ScaleShapeUp p.SubTileLocations p.Range] else []) ∧
      ∀ (Before : List (Finset FIntPoint)) (L : Finset FIntPoint),
        LocationsReceivedBy c OnActivated
            (APlant.ReceiveEffectTrigger G
              (APlant.ReceiveEffectTriggers G p PlantsGrow Before).1 PlantsGrow L).2 =
          (if (Before.length : Int) + 1 = n then [G.ScaleShapeUp p.SubTileLocations p.Range]
            else []) := by
  intro c hc
  constructor
  · rw [APlant.PlantsGrow_run_activated G Ls p hfin hhealth c hc, htime]
    by_cases h : n ≤ (Ls.length : Int) <;> simp [h, hn]
  · intro Before L
    have hst := APlant.PlantsGrow_run_state G Before p hfin hhealth (by omega)
    rw [hst]
    have hl := (APlant.PlantsGrow_step G
      { p with TimeUntilGrown := max 0 (p.TimeUntilGrown - Before.length) } L hfin hhealth).2 c hc
    rw [hl]
    dsimp only
    by_cases h : (Before.length : Int) + 1 = n
    · have : max 0 (p.TimeUntilGrown - (Before.length : Int)) = 1 := by omega
      simp [h, this]
    · have : ¬ max 0 (p.TimeUntilGrown - (Before.length : Int)) = 1 := by omega
      simp [h, this]

/-- Witness of C3: TimeUntilGrown = 2, range 1, shape {(0,0)}, two `PlantsGrow`
triggers: the component receives `OnActivated` once, with the 9 cells of the
square around (0,0), and the first trigger alone forwards none. -/
theorem PlantsGrow_activates_once_at_nth_witness :
    LocationsReceivedBy 0 OnActivated
        (APlant.ReceiveEffectTriggers SampleGridLibrary (SamplePlant 1 2 1) PlantsGrow [∅, ∅]).2 =
      [ScaleShapeUpSquare {(0, 0)} 1] ∧
    (ScaleShapeUpSquare {(0, 0)} 1).card = 9 ∧
    LocationsReceivedBy 0 OnActivated
        (APlant.ReceiveEffectTriggers SampleGridLibrary (SamplePlant 1 2 1) PlantsGrow [∅]).2 =
      [] := by
  have h2 := (PlantsGrow_activates_once_at_nth SampleGridLibrary (SamplePlant 1 2 1) 2 [∅, ∅]
    (by decide) (by decide) (by decide) (by decide) 0 (by decide)).1
  refine ⟨?_, by decide, by decide⟩
  rw [h2]
  decide

/-! ## Damage -/

theorem APlant.ReceiveDamage_of_not_finished (G : UGridLibrary) (p : APlant) (Amount : Int)
    (h : p.bIsFinishedPlanting = false) : APlant.ReceiveDamage G p Amount = (p, false, []) := by
  simp [APlant.ReceiveDamage, h]

theorem WrapInt32_of_IsInt32 (x : Int) (h : IsInt32 x) : WrapInt32 x = x := by
  unfold IsInt32 at h
  unfold WrapInt32
  omega

theorem WrapInt32_of_below (x : Int) (h1 : -4294967296 ≤ x) (h2 : x < -2147483648) :
    WrapInt32 x = x + 4294967296 := by
  unfold WrapInt32
  omega

theorem IsInt32_WrapInt32 (x : Int) : IsInt32 (WrapInt32 x) := by
  unfold IsInt32 WrapInt32
  omega

/-- The three outcomes of `ReceiveDamage` on a plant that has finished planting. -/
theorem APlant.ReceiveDamage_of_finished (G : UGridLibrary) (p : APlant) (Amount : Int)
    (h : p.bIsFinishedPlanting = true) :
    APlant.ReceiveDamage G p Amount =
      ({ p with Health := WrapInt32 (p.Health - max 0 Amount) },
        decide (WrapInt32 (p.Health - max 0 Amount) ≤ 0),
        if WrapInt32 (p.Health - max 0 Amount) ≤ 0 ∧ 0 < p.Health
        then [Event.Broadcast PlantKilled p.SubTileLocations] else []) := by
  by_cases hd : WrapInt32 (p.Health - max 0 Amount) ≤ 0
  · by_cases ho : 0 < p.Health
    · have hn : ¬ 0 < WrapInt32 (p.Health - max 0 Amount) := by omega
      simp [APlant.ReceiveDamage, APlant.Broadcast, APlant.ReceiveEffectTrigger,
        APlant.ForwardEffectTrigger, h, hd, ho, hn]
    · simp [APlant.ReceiveDamage, h, hd, ho]
  · simp [APlant.ReceiveDamage, h, hd]

/-- C4 (the code at the failing input, and in general): lethal damage to a grown
plant of Health 3 that has finished planting returns true and broadcasts
`PlantKilled`, but no effect component receives `OnDeactivated`; indeed no
`ReceiveDamage` call on any plant hands any trigger to any effect component. -/
theorem ReceiveDamage_forwards_nothing :
    APlant.ReceiveDamage SampleGridLibrary (SamplePlant 3 0 1) 3 =
        (SamplePlant 0 0 1, true, [Event.Broadcast PlantKilled {(0, 0)}]) ∧
    TriggersReceivedBy 0 (APlant.ReceiveDamage SampleGridLibrary (SamplePlant 3 0 1) 3).2.2 = [] ∧
    ∀ (G : UGridLibrary) (p : APlant) (Amount : Int) (c : Nat),
      TriggersReceivedBy c (APlant.ReceiveDamage G p Amount).2.2 = [] := by
  refine ⟨by decide, by decide, fun G p Amount c => ?_⟩
  cases h : p.bIsFinishedPlanting
  · rw [APlant.ReceiveDamage_of_not_finished G p Amount h]
    rfl
  · rw [APlant.ReceiveDamage_of_finished G p Amount h]
    dsimp only
    split <;> rfl

/-- Counterexample to C5 as stated: it is not the case that `ReceiveDamage` always
sets Health to Health - max 0 Amount. A plant of Health 3 that has finished
planting receives the damage 2147483647 twice: the first call leaves Health
-2147483644 and returns true, the second call wraps the 32-bit Health around to
5, a rise, and returns false. -/
theorem ReceiveDamage_exact_subtraction_counterexample :
    (APlant.ReceiveDamages SampleGridLibrary (SamplePlant 3 0 1)
        [2147483647, 2147483647]).1.Health = 5 ∧
    (APlant.ReceiveDamages SampleGridLibrary (SamplePlant 3 0 1)
        [2147483647, 2147483647]).2.1 = [true, false] ∧
    ¬ (∀ (G : UGridLibrary) (p : APlant) (Amount : Int),
        p.bIsFinishedPlanting = true → IsInt32 p.Health → IsInt32 Amount →
        (APlant.ReceiveDamage G p Amount).1.Health = p.Health - max 0 Amount ∧
        (APlant.ReceiveDamage G p Amount).1.Health ≤ p.Health ∧
        (0 < (APlant.ReceiveDamage G p Amount).1.Health →
          (APlant.ReceiveDamage G p Amount).2.2 = []) ∧
        ((APlant.ReceiveDamage G p Amount).2.1 = true ↔
          (APlant.ReceiveDamage G p Amount).1.Health ≤ 0)) := by
  refine ⟨by decide, by decide, fun h => ?_⟩
  have h1 := (h SampleGridLibrary (SamplePlant (-2147483644) 0 1) 2147483647 (by decide)
    (by unfold IsInt32; decide) (by unfold IsInt32; decide)).2.1
  have h2 : (APlant.ReceiveDamage SampleGridLibrary (SamplePlant (-2147483644) 0 1)
      2147483647).1.Health = 5 := by decide
  rw [h2] at h1
  exact absurd h1 (by decide)

/-- C5 (amended): on a plant that has finished planting, `ReceiveDamage` sets
Health to the 32-bit result of Health - max 0 Amount. That is Health - max 0
Amount itself whenever this value is at least -2147483648, and then Health does
not go up, so a negative amount never heals; it is that value plus 4294967296, a
positive Health, when the value is lower. The call causes no event at all when
the resulting Health is still > 0, and it returns true exactly when the
resulting Health is <= 0. -/
theorem ReceiveDamage_health_wraps_and_result (G : UGridLibrary) (p : APlant) (Amount : Int)
    (hfin : p.bIsFinishedPlanting = true) :
    (APlant.ReceiveDamage G p Amount).1.Health = WrapInt32 (p.Health - max 0 Amount) ∧
    (IsInt32 p.Health → -2147483648 ≤ p.Health - max 0 Amount →
      (APlant.ReceiveDamage G p Amount).1.Health = p.Health - max 0 Amount ∧
      (APlant.ReceiveDamage G p Amount).1.Health ≤ p.Health) ∧
    (IsInt32 p.Health → IsInt32 Amount → p.Health - max 0 Amount < -2147483648 →
      (APlant.ReceiveDamage G p Amount).1.Health = p.Health - max 0 Amount + 4294967296 ∧
      0 < (APlant.ReceiveDamage G p Amount).1.Health) ∧
    (0 < (APlant.ReceiveDamage G p Amount).1.Health →
      (APlant.ReceiveDamage G p Amount).2.2 = []) ∧
    ((APlant.ReceiveDamage G p Amount).2.1 = true ↔
      (APlant.ReceiveDamage G p Amount).1.Health ≤ 0) := by
  rw [APlant.ReceiveDamage_of_finished G p Amount hfin]
  refine ⟨rfl, fun hH hlow => ?_, fun hH hA hlow => ?_, ?_, ?_⟩
  · dsimp only
    unfold IsInt32 at hH
    rw [WrapInt32_of_IsInt32 _ (by unfold IsInt32; omega)]
    omega
  · dsimp only
    unfold IsInt32 at hH hA
    rw [WrapInt32_of_below _ (by omega) hlow]
    omega
  · intro hpos
    dsimp only at hpos ⊢
    have : ¬ (WrapInt32 (p.Health - max 0 Amount) ≤ 0 ∧ 0 < p.Health) := by omega
    rw [if_neg this]
  · simp

/-- Witness of C5 (amended): Health 3, damage 2 returns false with Health 1 and
no event; damage 2 again returns true; a third damage call returns true. -/
theorem ReceiveDamage_health_wraps_and_result_witness :
    (APlant.ReceiveDamage SampleGridLibrary (SamplePlant 3 0 1) 2).1.Health = 3 - max 0 2 ∧
    (APlant.ReceiveDamage SampleGridLibrary (SamplePlant 3 0 1) 2).2 = (false, []) ∧
    (APlant.ReceiveDamages SampleGridLibrary (SamplePlant 3 0 1) [2, 2, 2]).2.1 =
      [false, true, true] := by
  have h := ReceiveDamage_health_wraps_and_result SampleGridLibrary (SamplePlant 3 0 1) 2
    (by decide)
  exact ⟨(h.2.1 (by unfold IsInt32; decide) (by decide)).1, by decide, by decide⟩

/-- C6 (the code at the failing input): a plant of Health 3 that has finished
planting is killed by damage 3 (Health 0, result true); a further damage of 1
returns true again although Health was not > 0 before that call, and so does a
further damage of 0. -/
theorem ReceiveDamage_true_on_dead_plant :
    (APlant.ReceiveDamage SampleGridLibrary (SamplePlant 3 0 1) 3).1 = SamplePlant 0 0 1 ∧
    (APlant.ReceiveDamage SampleGridLibrary (SamplePlant 3 0 1) 3).2.1 = true ∧
    ¬ (0 < (SamplePlant 0 0 1).Health) ∧
    (APlant.ReceiveDamage SampleGridLibrary (SamplePlant 0 0 1) 1).2.1 = true ∧
    (APlant.ReceiveDamage SampleGridLibrary (SamplePlant 0 0 1) 0).2.1 = true := by
  decide

/-! ## Picking up trash -/

theorem Broadcasts_append (l₁ l₂ : List Event) :
    Broadcasts (l₁ ++ l₂) = Broadcasts l₁ ++ Broadcasts l₂ := by
  induction l₁ with
  | nil => rfl
  | cons e es ih => cases e <;> simp [Broadcasts, ih]

theorem Broadcasts_ActivateEffectOnComponents (n : Nat) (T : ETileEffectTriggerType)
    (S : Finset FIntPoint) : Broadcasts (ActivateEffectOnComponents n T S) = [] := by
  induction n with
  | zero => rfl
  | succ n ih =>
    have hstep : ActivateEffectOnComponents (n + 1) T S =
        ActivateEffectOnComponents n T S ++ [Event.ActivateEffect n T S] := by
      simp [ActivateEffectOnComponents, List.range_succ]
    rw [hstep, Broadcasts_append, ih]
    rfl

/-- The handler of a trash broadcasts nothing and leaves the trash as it is. -/
theorem ATrash.ReceiveEffectTrigger_state_and_broadcasts (G : UGridLibrary) (t : ATrash)
    (T : ETileEffectTriggerType) (L : Finset FIntPoint) :
    (ATrash.ReceiveEffectTrigger G t T L).1 = t ∧
    Broadcasts (ATrash.ReceiveEffectTrigger G t T L).2 = [] := by
  unfold ATrash.ReceiveEffectTrigger
  dsimp only
  split_ifs <;> simp [Broadcasts_ActivateEffectOnComponents, Broadcasts]

/-- C8: for a valid, non-abstract plant class, `SowPlant` with an energy reserve
returns (without a fault) true exactly when the reserve is at least the class's
planting cost and the class's shape, transformed to the target grid transform,
overlaps no blocking tile. On true exactly one plant is spawned, of that class at
that transform, and the reserve goes down by the planting cost; on false nothing
is spawned and the reserve is unchanged. The overload that takes a world
transform is the same call at the converted transform. -/
theorem SowPlant_with_energy_valid_class (G : UGridLibrary) (EnergyReserve : Int)
    (C : UPlantClass) (Transform : FGridTransform) (hvalid : C.bAbstract = false) :
    (∃ b e log,
      APlant.SowPlantWithEnergy G EnergyReserve (some C) Transform = some (b, e, log) ∧
      (b = true ↔ EnergyReserve ≥ C.PlantingCost ∧
        G.OverlapShape (G.TransformShape C.Shape Transform) = false) ∧
      (b = true → log = [Event.SpawnActor C Transform] ∧
        SpawnedActors log = [(C, Transform)] ∧ e = EnergyReserve - C.PlantingCost) ∧
      (b = false → log = [] ∧ SpawnedActors log = [] ∧ e = EnergyReserve)) ∧
    ∀ (FTransform : Type) (toGrid : FTransform → FGridTransform) (X : FTransform),
      toGrid X = Transform →
      APlant.SowPlantWithEnergyAtWorldTransform toGrid G EnergyReserve (some C) X =
        APlant.SowPlantWithEnergy G EnergyReserve (some C) Transform := by
  constructor
  · by_cases he : EnergyReserve ≥ C.PlantingCost
    · cases ho : G.OverlapShape (G.TransformShape C.Shape Transform)
      · refine ⟨true, EnergyReserve - C.PlantingCost, [Event.SpawnActor C Transform], ?_, ?_, ?_, ?_⟩
        · simp [APlant.SowPlantWithEnergy, APlant.SowPlant, hvalid, he, ho]
        · simp [he]
        · intro _
          exact ⟨rfl, rfl, rfl⟩
        · intro h
          cases h
      · refine ⟨false, EnergyReserve, [], ?_, ?_, ?_, ?_⟩
        · simp [APlant.SowPlantWithEnergy, APlant.SowPlant, hvalid, he, ho]
        · simp
        · intro h
          cases h
        · intro _
          exact ⟨rfl, rfl, rfl⟩
    · refine ⟨false, EnergyReserve, [], ?_, ?_, ?_, ?_⟩
      · simp [APlant.SowPlantWithEnergy, he]
      · simp [he]
      · intro h
        cases h
      · intro _
        exact ⟨rfl, rfl, rfl⟩
  · intro FTransform toGrid X hX
    simp [APlant.SowPlantWithEnergyAtWorldTransform, hX]

/-- Witness of C8: cost 2 and reserve 5 in an empty world sow the plant and leave
reserve 3; with the target cell occupied, or with reserve 1, nothing is sown and
the reserve is unchanged. -/
theorem SowPlant_with_energy_valid_class_witness :
    APlant.SowPlantWithEnergy SampleGridLibrary 5 (some SamplePlantClass) (SampleTransform 1 1) =
        some (true, 3, [Event.SpawnActor SamplePlantClass (SampleTransform 1 1)]) ∧
    APlant.SowPlantWithEnergy (SampleGridLibraryBlocked (1, 1)) 5 (some SamplePlantClass)
        (SampleTransform 1 1) = some (false, 5, []) ∧
    APlant.SowPlantWithEnergy SampleGridLibrary 1 (some SamplePlantClass) (SampleTransform 1 1) =
        some (false, 1, []) := by
  obtain ⟨b, e, log, hres, hiff, htrue, _⟩ :=
    (SowPlant_with_energy_valid_class SampleGridLibrary 5 SamplePlantClass (SampleTransform 1 1)
      (by decide)).1
  have hb : b = true := hiff.mpr ⟨by decide, by decide⟩
  obtain ⟨hlog, _, he⟩ := htrue hb
  refine ⟨?_, by decide, by decide⟩
  rw [hres, hb, hlog, he]
  decide

/-- C9 (the code at the failing input): with the null class, the `SowPlant`
overload that takes an energy reserve reads the planting cost through the null
class default object, for every reserve and transform, and so does the overload
that takes a world transform; the overloads without an energy reserve reject the
null class and return false without spawning. -/
theorem SowPlant_with_energy_null_class_faults :
    APlant.SowPlantWithEnergy SampleGridLibrary 5 none (SampleTransform 1 1) = none ∧
    (∀ (G : UGridLibrary) (EnergyReserve : Int) (Transform : FGridTransform),
      APlant.SowPlantWithEnergy G EnergyReserve none Transform = none) ∧
    (∀ (FTransform : Type) (toGrid : FTransform → FGridTransform) (G : UGridLibrary)
      (EnergyReserve : Int) (X : FTransform),
      APlant.SowPlantWithEnergyAtWorldTransform toGrid G EnergyReserve none X = none) ∧
    (∀ (G : UGridLibrary) (Transform : FGridTransform),
      APlant.SowPlant G none Transform = (false, [])) := by
  exact ⟨rfl, fun _ _ _ => rfl, fun _ _ _ _ _ => rfl, fun _ _ => rfl⟩

/-- What the code does for the rejected classes apart from the null class on the
energy overloads: false, no event, reserve unchanged. -/
theorem APlant.SowPlant_rejects_abstract (G : UGridLibrary) (EnergyReserve : Int)
    (C : UPlantClass) (Transform : FGridTransform) (habs : C.bAbstract = true) :
    APlant.SowPlant G (some C) Transform = (false, []) ∧
    APlant.SowPlantWithEnergy G EnergyReserve (some C) Transform =
      some (false, EnergyReserve, []) := by
  constructor
  · simp [APlant.SowPlant, habs]
  · by_cases he : EnergyReserve ≥ C.PlantingCost <;>
      simp [APlant.SowPlantWithEnergy, APlant.SowPlant, habs, he]

/-! ## Inactive trash -/

theorem ATrash.ReceiveEffectTrigger_of_inactive (G : UGridLibrary) (t : ATrash)
    (T : ETileEffectTriggerType) (L : Finset FIntPoint) (h : t.bActive = false) :
    ATrash.ReceiveEffectTrigger G t T L = (t, []) := by
  simp [ATrash.ReceiveEffectTrigger, h]

theorem ATrash.SetRange_of_inactive (G : UGridLibrary) (t : ATrash) (NewRange : Int)
    (h : t.bActive = false) :
    ATrash.SetRange_Implementation G t NewRange = ({ t with Range := max 0 NewRange }, []) := by
  simp [ATrash.SetRange_Implementation, ATrash.ReceiveEffectTrigger, h]

theorem ATrash.Calls_of_inactive (G : UGridLibrary) (calls : List ATrashCall) :
    ∀ t : ATrash, t.bActive = false →
      (ATrash.Calls G t calls).2 = [] ∧ (ATrash.Calls G t calls).1.bActive = false ∧
      (ATrash.Calls G t calls).1.SubTileLocations = t.SubTileLocations := by
  induction calls with
  | nil =>
    intro t h
    exact ⟨rfl, h, rfl⟩
  | cons call calls ih =>
    intro t h
    cases call with
    | ReceiveEffectTrigger T L =>
      simp only [ATrash.Calls, ATrash.ReceiveEffectTrigger_of_inactive G t T L h, List.nil_append]
      exact ih t h
    | SetRange n =>
      simp only [ATrash.Calls, ATrash.SetRange_of_inactive G t n h, List.nil_append]
      exact ih { t with Range := max 0 n } h

/-- C10: while `bActive` is false, no run of `ReceiveEffectTrigger` calls (any
trigger type, any cell set) and `SetRange` calls hands anything to an effect
component, and the trash stays inactive. `OnFinishedFalling` sets `bActive` to
true and hands `OnActivated` to every effect component, with the full effect
location set `ScaleShapeUp SubTileLocations Range`. The trash occupies at least
one cell and `ScaleShapeUp` returns a superset of the cells it is given. -/
theorem inactive_trash_until_OnFinishedFalling (G : UGridLibrary) (t : ATrash)
    (hinactive : t.bActive = false) (hcells : t.SubTileLocations.Nonempty)
    (hsuperset : ∀ r, t.SubTileLocations ⊆ G.ScaleShapeUp t.SubTileLocations r) :
    (∀ calls : List ATrashCall,
      (ATrash.Calls G t calls).2 = [] ∧ (ATrash.Calls G t calls).1.bActive = false) ∧
    (∀ (T : ETileEffectTriggerType) (L : Finset FIntPoint),
      ATrash.ReceiveEffectTrigger G t T L = (t, [])) ∧
    (∀ NewRange : Int, (ATrash.SetRange_Implementation G t NewRange).2 = [] ∧
      (ATrash.SetRange_Implementation G t NewRange).1.bActive = false) ∧
    (ATrash.OnFinishedFalling G t).1 = { t with bActive := true } ∧
    (ATrash.OnFinishedFalling G t).2 =
      ActivateEffectOnComponents t.NumEffectComponents OnActivated
        (G.ScaleShapeUp t.SubTileLocations t.Range) ∧
    ∀ c, c < t.NumEffectComponents →
      TriggersReceivedBy c (ATrash.OnFinishedFalling G t).2 =
        [(OnActivated, G.ScaleShapeUp t.SubTileLocations t.Range)] := by
  have hne : G.ScaleShapeUp t.SubTileLocations t.Range ≠ ∅ :=
    (hcells.mono (hsuperset t.Range)).ne_empty
  have hlog : (ATrash.OnFinishedFalling G t).2 =
      ActivateEffectOnComponents t.NumEffectComponents OnActivated
        (G.ScaleShapeUp t.SubTileLocations t.Range) := by
    simp [ATrash.OnFinishedFalling, ATrash.ReceiveEffectTrigger, ATrash.GetEffectLocations,
      IsEmpty, hne]
  refine ⟨fun calls => ⟨(ATrash.Calls_of_inactive G calls t hinactive).1,
      (ATrash.Calls_of_inactive G calls t hinactive).2.1⟩,
    fun T L => ATrash.ReceiveEffectTrigger_of_inactive G t T L hinactive,
    fun n => ?_, ?_, hlog, fun c hc => ?_⟩
  · rw [ATrash.SetRange_of_inactive G t n hinactive]
    exact ⟨rfl, hinactive⟩
  · exact (ATrash.ReceiveEffectTrigger_state_and_broadcasts G _ _ _).1
  · rw [hlog, TriggersReceivedBy_ActivateEffectOnComponents, if_pos hc]

/-- Witness of C10: an inactive trash of range 1 on `(0,0)` under square scaling:
a trigger and two range changes reach no component, and `OnFinishedFalling` hands
its component `OnActivated` with the 9 cells around `(0,0)`. -/
theorem inactive_trash_until_OnFinishedFalling_witness :
    (ATrash.Calls SampleGridLibrary (SampleTrash false 1 3)
        [ATrashCall.ReceiveEffectTrigger OnActivated ∅, ATrashCall.SetRange 2,
          ATrashCall.SetRange 1]).2 = [] ∧
    (ATrash.OnFinishedFalling SampleGridLibrary (SampleTrash false 1 3)).2 =
      [Event.ActivateEffect 0 OnActivated (ScaleShapeUpSquare {(0, 0)} 1)] := by
  have h := inactive_trash_until_OnFinishedFalling SampleGridLibrary (SampleTrash false 1 3)
    (by decide) ⟨(0, 0), by decide⟩ (fun r => ScaleShapeUpSquare_superset _ r)
  refine ⟨(h.1 _).1, ?_⟩
  rw [h.2.2.2.2.1]
  decide

/-! ## Planting and the growth counter -/

theorem APlant.Grow_Implementation_bIsFinishedPlanting (G : UGridLibrary) (p : APlant) :
    (APlant.Grow_Implementation G p).1.bIsFinishedPlanting = p.bIsFinishedPlanting := by
  unfold APlant.Grow_Implementation
  dsimp only
  split_ifs <;> rfl

/-- The handler changes `bIsFinishedPlanting` only on a `PlayerTurn` trigger, and
then to true. -/
theorem APlant.ReceiveEffectTrigger_bIsFinishedPlanting (G : UGridLibrary) (p : APlant)
    (T : ETileEffectTriggerType) (L : Finset FIntPoint) :
    (APlant.ReceiveEffectTrigger G p T L).1.bIsFinishedPlanting =
      (p.bIsFinishedPlanting || decide (T = PlayerTurn)) := by
  unfold APlant.ReceiveEffectTrigger
  dsimp only
  by_cases hg : T = PlantsGrow
  · subst hg
    simp [APlant.Grow_Implementation_bIsFinishedPlanting]
  · by_cases ht : T = PlayerTurn
    · subst ht
      cases hf : p.bIsFinishedPlanting <;> simp [hf]
    · cases hf : p.bIsFinishedPlanting <;> simp [hg, ht, hf]

theorem APlant.BeginPlay_bIsFinishedPlanting (G : UGridLibrary) (IsPlayerTurn : Bool)
    (p : APlant) : (APlant.BeginPlay G IsPlayerTurn p).1.bIsFinishedPlanting = IsPlayerTurn := by
  simp [APlant.BeginPlay, APlant.Broadcast, APlant.ReceiveEffectTrigger_bIsFinishedPlanting]

/-- Counterexample to C11 as stated: it is not the case that `bIsFinishedPlanting`
is false after every `BeginPlay`. A plant spawned while
`ASyrupGameMode::IsPlayerTurn` is true has finished planting when `BeginPlay`
returns. -/
theorem BeginPlay_finished_in_player_turn_counterexample :
    ¬ (∀ (G : UGridLibrary) (IsPlayerTurn : Bool) (p : APlant),
        (APlant.BeginPlay G IsPlayerTurn p).1.bIsFinishedPlanting = false) := by
  intro h
  have h1 := h SampleGridLibrary true (SamplePlant 1 1 1)
  rw [APlant.BeginPlay_bIsFinishedPlanting] at h1
  exact absurd h1 (by decide)

/-- C11 (amended): after `BeginPlay` a plant's `bIsFinishedPlanting` is the value of
`ASyrupGameMode::IsPlayerTurn` at that time, so it is false for a plant spawned
outside the player's turn. While it is false it stays false under every run of
triggers without a `PlayerTurn` trigger; a `PlayerTurn` trigger sets it to true;
no trigger of another type changes it, and no trigger sets it back to false. -/
theorem bIsFinishedPlanting_until_PlayerTurn (G : UGridLibrary) (IsPlayerTurn : Bool)
    (p q : APlant) (hq : q.bIsFinishedPlanting = false) :
    (APlant.BeginPlay G IsPlayerTurn p).1.bIsFinishedPlanting = IsPlayerTurn ∧
    (∀ TLs : List (ETileEffectTriggerType × Finset FIntPoint),
      (∀ TL ∈ TLs, TL.1 ≠ PlayerTurn) →
        (APlant.ReceiveTriggerSequence G q TLs).1.bIsFinishedPlanting = false) ∧
    (∀ L : Finset FIntPoint,
      (APlant.ReceiveEffectTrigger G q PlayerTurn L).1.bIsFinishedPlanting = true) ∧
    (∀ (r : APlant) (T : ETileEffectTriggerType) (L : Finset FIntPoint), T ≠ PlayerTurn →
      (APlant.ReceiveEffectTrigger G r T L).1.bIsFinishedPlanting = r.bIsFinishedPlanting) ∧
    (∀ (r : APlant) (T : ETileEffectTriggerType) (L : Finset FIntPoint),
      r.bIsFinishedPlanting = true →
        (APlant.ReceiveEffectTrigger G r T L).1.bIsFinishedPlanting = true) := by
  refine ⟨APlant.BeginPlay_bIsFinishedPlanting G IsPlayerTurn p, ?_, ?_, ?_, ?_⟩
  · intro TLs
    induction TLs generalizing q with
    | nil =>
      intro _
      exact hq
    | cons TL TLs ih =>
      intro hne
      simp only [APlant.ReceiveTriggerSequence]
      apply ih
      · rw [APlant.ReceiveEffectTrigger_bIsFinishedPlanting, hq]
        simp [hne TL (List.mem_cons_self _ _)]
      · intro TL' hmem
        exact hne TL' (List.mem_cons_of_mem _ hmem)
  · intro L
    rw [APlant.ReceiveEffectTrigger_bIsFinishedPlanting]
    simp
  · intro r T L hT
    rw [APlant.ReceiveEffectTrigger_bIsFinishedPlanting]
    simp [hT]
  · intro r T L hr
    rw [APlant.ReceiveEffectTrigger_bIsFinishedPlanting, hr]
    rfl

/-- Witness of C11 (amended): a plant spawned outside the player's turn has not
finished planting after `BeginPlay`; two `PlantsGrow` triggers leave that so, and
the `PlayerTurn` trigger after them finishes the planting. -/
theorem bIsFinishedPlanting_until_PlayerTurn_witness :
    (APlant.BeginPlay SampleGridLibrary false (SamplePlant 1 2 1)).1.bIsFinishedPlanting = false ∧
    (APlant.ReceiveTriggerSequence SampleGridLibrary
      (APlant.BeginPlay SampleGridLibrary false (SamplePlant 1 2 1)).1
      [(PlantsGrow, ∅), (PlantsGrow, ∅)]).1.bIsFinishedPlanting = false ∧
    (APlant.ReceiveTriggerSequence SampleGridLibrary
      (APlant.BeginPlay SampleGridLibrary false (SamplePlant 1 2 1)).1
      [(PlantsGrow, ∅), (PlantsGrow, ∅), (PlayerTurn, ∅)]).1.bIsFinishedPlanting = true := by
  have h := bIsFinishedPlanting_until_PlayerTurn SampleGridLibrary false (SamplePlant 1 2 1)
    (APlant.BeginPlay SampleGridLibrary false (SamplePlant 1 2 1)).1 (by decide)
  refine ⟨h.1, h.2.1 [(PlantsGrow, ∅), (PlantsGrow, ∅)] (by decide), by decide⟩

/-- The growth counter after one trigger. -/
theorem APlant.ReceiveEffectTrigger_TimeUntilGrown (G : UGridLibrary) (p : APlant)
    (T : ETileEffectTriggerType) (L : Finset FIntPoint) :
    (APlant.ReceiveEffectTrigger G p T L).1.TimeUntilGrown =
      if T = PlantsGrow ∧ p.bIsFinishedPlanting = true ∧ 0 < p.TimeUntilGrown
      then p.TimeUntilGrown - 1 else p.TimeUntilGrown := by
  unfold APlant.ReceiveEffectTrigger
  dsimp only
  by_cases hg : T = PlantsGrow
  · subst hg
    unfold APlant.Grow_Implementation
    cases hf : p.bIsFinishedPlanting
    · simp
    · by_cases h0 : 0 < p.TimeUntilGrown
      · have h1 : ¬ p.TimeUntilGrown ≤ 0 := by omega
        simp only [APlant.IsGrown, h1, h0]
        by_cases h2 : p.TimeUntilGrown - 1 ≤ 0 <;> simp [h2]
      · have h1 : p.TimeUntilGrown ≤ 0 := by omega
        simp [APlant.IsGrown, h1, h0]
  · by_cases ht : T = PlayerTurn
    · subst ht
      cases hf : p.bIsFinishedPlanting <;> simp
    · simp [hg, ht]

/-- C17: a `PlantsGrow` trigger received by a plant that has finished planting and
has TimeUntilGrown > 0 lowers TimeUntilGrown by exactly 1; a `PlantsGrow` trigger
received when TimeUntilGrown <= 0 or when planting is not finished leaves it
unchanged; no trigger of another type changes it; and TimeUntilGrown >= 0 is
preserved by every trigger. -/
theorem TimeUntilGrown_after_trigger (G : UGridLibrary) (p : APlant)
    (T : ETileEffectTriggerType) (L : Finset FIntPoint) :
    (T = PlantsGrow → p.bIsFinishedPlanting = true → 0 < p.TimeUntilGrown →
      (APlant.ReceiveEffectTrigger G p T L).1.TimeUntilGrown = p.TimeUntilGrown - 1) ∧
    (T = PlantsGrow → (p.TimeUntilGrown ≤ 0 ∨ p.bIsFinishedPlanting = false) →
      (APlant.ReceiveEffectTrigger G p T L).1.TimeUntilGrown = p.TimeUntilGrown) ∧
    (T ≠ PlantsGrow →
      (APlant.ReceiveEffectTrigger G p T L).1.TimeUntilGrown = p.TimeUntilGrown) ∧
    (0 ≤ p.TimeUntilGrown → 0 ≤ (APlant.ReceiveEffectTrigger G p T L).1.TimeUntilGrown) := by
  rw [APlant.ReceiveEffectTrigger_TimeUntilGrown]
  refine ⟨fun h1 h2 h3 => ?_, fun h1 h2 => ?_, fun h1 => ?_, fun h0 => ?_⟩
  · rw [if_pos ⟨h1, h2, h3⟩]
  · rw [if_neg]
    rintro ⟨_, hf, hpos⟩
    rcases h2 with h2 | h2
    · omega
    · rw [h2] at hf
      cases hf
  · rw [if_neg]
    rintro ⟨h, _, _⟩
    exact h1 h
  · split
    · omega
    · exact h0

/-- Witness of C17: `PlantsGrow` takes the counter of a plant that has finished
planting from 2 to 1; `PlayerTurn` leaves it at 2; `PlantsGrow` leaves a counter
of 0 at 0. -/
theorem TimeUntilGrown_after_trigger_witness :
    (APlant.ReceiveEffectTrigger SampleGridLibrary (SamplePlant 1 2 1) PlantsGrow ∅).1.TimeUntilGrown
      = 2 - 1 ∧
    (APlant.ReceiveEffectTrigger SampleGridLibrary (SamplePlant 1 2 1) PlayerTurn ∅).1.TimeUntilGrown
      = 2 ∧
    (APlant.ReceiveEffectTrigger SampleGridLibrary (SamplePlant 1 0 1) PlantsGrow ∅).1.TimeUntilGrown
      = 0 := by
  have h2 := TimeUntilGrown_after_trigger SampleGridLibrary (SamplePlant 1 2 1) PlantsGrow ∅
  have ht := TimeUntilGrown_after_trigger SampleGridLibrary (SamplePlant 1 2 1) PlayerTurn ∅
  have h0 := TimeUntilGrown_after_trigger SampleGridLibrary (SamplePlant 1 0 1) PlantsGrow ∅
  exact ⟨h2.1 rfl (by decide) (by decide), ht.2.2.1 (by decide),
    h0.2.1 rfl (Or.inl (by decide))⟩

theorem Forwards_ActivateEffectOnComponents_iff (n : Nat) (T T' : ETileEffectTriggerType)
    (S : Finset FIntPoint) :
    Forwards (ActivateEffectOnComponents n T S) T' ↔ T = T' ∧ 0 < n := by
  constructor
  · rintro ⟨c, S', hm⟩
    obtain ⟨c', hc', he⟩ := (mem_ActivateEffectOnComponents _ _ _ _).mp hm
    injection he with _ hT _
    exact ⟨hT.symm, by omega⟩
  · rintro ⟨hT, hn⟩
    subst hT
    exact ⟨0, S, (mem_ActivateEffectOnComponents _ _ _ _).mpr ⟨0, hn, rfl⟩⟩

theorem Forwards_cons_Broadcast (T T' : ETileEffectTriggerType) (S : Finset FIntPoint)
    (l : List Event) : Forwards (Event.Broadcast T S :: l) T' ↔ Forwards l T' := by
  unfold Forwards
  constructor
  · rintro ⟨c, S', h⟩
    rcases List.mem_cons.mp h with h | h
    · cases h
    · exact ⟨c, S', h⟩
  · rintro ⟨c, S', h⟩
    exact ⟨c, S', List.mem_cons_of_mem _ h⟩

/-- The forwarding statement of the plant's handler only ever forwards the type
it is given. -/
theorem APlant.Forwards_ForwardEffectTrigger (G : UGridLibrary) (p : APlant)
    (T T' : ETileEffectTriggerType) (L : Finset FIntPoint)
    (h : Forwards (APlant.ForwardEffectTrigger G p T L) T') : T = T' := by
  unfold APlant.ForwardEffectTrigger at h
  split at h
  · exact ((Forwards_ActivateEffectOnComponents_iff _ _ _ _).mp h).1
  · exact absurd h (not_Forwards_nil _)

/-- The growth counter and the events of `BeginPlay`, by the configured counter,
a 32-bit `int`: the counter is kept when it is >= 0 and below 2147483647, and
`OnActivated` is forwarded exactly for a counter of 0. -/
theorem APlant.BeginPlay_TimeUntilGrown_and_log (G : UGridLibrary) (IsPlayerTurn : Bool)
    (p : APlant) (hrange : IsInt32 p.TimeUntilGrown) :
    (APlant.BeginPlay G IsPlayerTurn p).1.TimeUntilGrown =
        (if 0 ≤ p.TimeUntilGrown ∧ p.TimeUntilGrown < 2147483647 then p.TimeUntilGrown
          else WrapInt32 (p.TimeUntilGrown + 1)) ∧
    (Forwards (APlant.BeginPlay G IsPlayerTurn p).2 OnActivated ↔
      p.TimeUntilGrown = 0 ∧ 0 < p.Health ∧ 0 < p.NumEffectComponents) := by
  obtain ⟨fin, health, tug, range, sub, n⟩ := p
  simp only at hrange
  unfold IsInt32 at hrange
  have hsp : ∀ q : APlant, ¬ Forwards
      (APlant.ForwardEffectTrigger G q PlantSpawned q.SubTileLocations) OnActivated :=
    fun q h => absurd (APlant.Forwards_ForwardEffectTrigger G q _ _ _ h) (by decide)
  simp only [APlant.BeginPlay, APlant.Broadcast,
    APlant.ReceiveEffectTrigger_of_not_grow_or_turn G _ PlantSpawned _ (by decide) (by decide),
    Forwards_append, Forwards_cons_Broadcast, hsp, or_false]
  by_cases hkeep : 0 ≤ tug ∧ tug < 2147483647
  · have hw : WrapInt32 (tug + 1) = tug + 1 :=
      WrapInt32_of_IsInt32 _ (by unfold IsInt32; omega)
    have h0 : ¬ tug + 1 ≤ 0 := by omega
    rw [hw]
    by_cases h2 : tug = 0
    · subst h2
      by_cases hh : 0 < health
      · simp [APlant.Grow_Implementation, APlant.IsGrown, APlant.ForwardEffectTrigger, hh,
          Forwards_ActivateEffectOnComponents_iff]
      · simp [APlant.Grow_Implementation, APlant.IsGrown, APlant.ForwardEffectTrigger, hh,
          not_Forwards_nil]
    · have h3 : ¬ tug ≤ 0 := by omega
      simp [APlant.Grow_Implementation, APlant.IsGrown, h0, h2, h3, hkeep, not_Forwards_nil]
  · have hw : WrapInt32 (tug + 1) ≤ 0 := by
      unfold WrapInt32
      omega
    have h2 : ¬ tug = 0 := by omega
    simp [APlant.Grow_Implementation, APlant.IsGrown, hw, h2, hkeep, not_Forwards_nil]

/-- The events of `BeginPlay` on a plant whose configured counter is >= 1 and
below 2147483647: the `PlantSpawned` broadcast and nothing else. -/
theorem APlant.BeginPlay_log_of_growing (G : UGridLibrary) (IsPlayerTurn : Bool) (p : APlant)
    (h : 1 ≤ p.TimeUntilGrown) (hmax : p.TimeUntilGrown < 2147483647) :
    (APlant.BeginPlay G IsPlayerTurn p).2 =
      [Event.Broadcast PlantSpawned p.SubTileLocations] := by
  obtain ⟨fin, health, tug, range, sub, n⟩ := p
  simp only at h hmax
  have hw : WrapInt32 (tug + 1) = tug + 1 :=
    WrapInt32_of_IsInt32 _ (by unfold IsInt32; omega)
  have h0 : ¬ tug + 1 ≤ 0 := by omega
  have h1 : ¬ tug ≤ 0 := by omega
  simp [APlant.BeginPlay, APlant.Broadcast, APlant.ReceiveEffectTrigger,
    APlant.ForwardEffectTrigger, APlant.Grow_Implementation, APlant.IsGrown, hw, h0, h1]

/-- Counterexample to C20 as stated: it is not the case that `BeginPlay` leaves
TimeUntilGrown equal to every configured n >= 1. For n = 2147483647 the 32-bit
increment wraps around, the plant counts as grown, `Grow` does nothing, and
TimeUntilGrown is -2147483648 after `BeginPlay`. -/
theorem BeginPlay_growth_time_counterexample :
    (APlant.BeginPlay SampleGridLibrary false (SamplePlant 1 2147483647 1)).1.TimeUntilGrown =
      -2147483648 ∧
    ¬ (∀ (G : UGridLibrary) (IsPlayerTurn : Bool) (p : APlant) (n : Int),
        IsInt32 n → p.TimeUntilGrown = n → 1 ≤ n →
          (APlant.BeginPlay G IsPlayerTurn p).1.TimeUntilGrown = n ∧
          ¬ Forwards (APlant.BeginPlay G IsPlayerTurn p).2 OnActivated) := by
  have hv : (APlant.BeginPlay SampleGridLibrary false
      (SamplePlant 1 2147483647 1)).1.TimeUntilGrown = -2147483648 := by decide
  refine ⟨hv, fun h => ?_⟩
  have h1 := (h SampleGridLibrary false (SamplePlant 1 2147483647 1) 2147483647
    (by unfold IsInt32; decide) rfl (by decide)).1
  rw [hv] at h1
  exact absurd h1 (by decide)

/-- C20 (amended): for a plant whose configured TimeUntilGrown is a 32-bit n >= 1,
`BeginPlay` (which adds 1 to the counter and calls `Grow`) forwards no
`OnActivated` to the effect components; for n < 2147483647 it leaves
TimeUntilGrown equal to n and its only event is the `PlantSpawned` broadcast,
while for n = 2147483647 the increment wraps around and TimeUntilGrown becomes
-2147483648. `OnActivated` is forwarded during `BeginPlay` only for n <= 0:
exactly for n = 0 on a plant with Health > 0 that has an effect component. -/
theorem BeginPlay_keeps_growth_time_below_max (G : UGridLibrary) (IsPlayerTurn : Bool)
    (p : APlant) (n : Int) (hn : p.TimeUntilGrown = n) (hrange : IsInt32 n) :
    (1 ≤ n → ¬ Forwards (APlant.BeginPlay G IsPlayerTurn p).2 OnActivated) ∧
    (1 ≤ n → n < 2147483647 →
      (APlant.BeginPlay G IsPlayerTurn p).1.TimeUntilGrown = n ∧
      (APlant.BeginPlay G IsPlayerTurn p).2 =
        [Event.Broadcast PlantSpawned p.SubTileLocations]) ∧
    (n = 2147483647 → (APlant.BeginPlay G IsPlayerTurn p).1.TimeUntilGrown = -2147483648) ∧
    (Forwards (APlant.BeginPlay G IsPlayerTurn p).2 OnActivated → n ≤ 0) ∧
    (Forwards (APlant.BeginPlay G IsPlayerTurn p).2 OnActivated ↔
      n = 0 ∧ 0 < p.Health ∧ 0 < p.NumEffectComponents) := by
  obtain ⟨ht, hf⟩ := APlant.BeginPlay_TimeUntilGrown_and_log G IsPlayerTurn p (hn ▸ hrange)
  rw [hn] at ht hf
  refine ⟨fun h1 h => ?_, fun h1 hmax => ⟨?_, ?_⟩, fun hmax => ?_, fun h => ?_, hf⟩
  · have := (hf.mp h).1
    omega
  · rw [ht, if_pos ⟨by omega, hmax⟩]
  · exact APlant.BeginPlay_log_of_growing G IsPlayerTurn p (by omega) (by omega)
  · rw [ht, if_neg (by omega), hmax]
    decide
  · have := (hf.mp h).1
    omega

/-- Witness of C20 (amended): a configured TimeUntilGrown of 2 is still 2 after
`BeginPlay`, and the effect component receives nothing. -/
theorem BeginPlay_keeps_growth_time_below_max_witness :
    (APlant.BeginPlay SampleGridLibrary false (SamplePlant 1 2 1)).1.TimeUntilGrown = 2 ∧
    ¬ Forwards (APlant.BeginPlay SampleGridLibrary false (SamplePlant 1 2 1)).2 OnActivated ∧
    TriggersReceivedBy 0 (APlant.BeginPlay SampleGridLibrary false (SamplePlant 1 2 1)).2 = [] := by
  have h := BeginPlay_keeps_growth_time_below_max SampleGridLibrary false (SamplePlant 1 2 1) 2
    rfl (by unfold IsInt32; decide)
  exact ⟨(h.2.1 (by decide) (by decide)).1, h.1 (by decide), by decide⟩

/-! ## The stored range -/

/-- C15: for every integer NewRange and every state of the tile, the Range stored
after `APlant::SetRange(NewRange)` and after
`ATrash::SetRange_Implementation(NewRange)` is max(0, NewRange). -/
theorem SetRange_stores_clamped_range (G : UGridLibrary) (p : APlant) (t : ATrash)
    (NewRange : Int) :
    (APlant.SetRange G p NewRange).1.Range = max 0 NewRange ∧
    (ATrash.SetRange_Implementation G t NewRange).1.Range = max 0 NewRange := by
  constructor
  · unfold APlant.SetRange
    simp only [APlant.ReceiveEffectTrigger_of_not_grow_or_turn G _ OnDeactivated _ (by decide)
        (by decide),
      APlant.ReceiveEffectTrigger_of_not_grow_or_turn G _ OnActivated _ (by decide) (by decide)]
    split_ifs <;> rfl
  · have hst : ∀ (u : ATrash) (T : ETileEffectTriggerType) (L : Finset FIntPoint),
        (ATrash.ReceiveEffectTrigger G u T L).1 = u :=
      fun u T L => (ATrash.ReceiveEffectTrigger_state_and_broadcasts G u T L).1
    unfold ATrash.SetRange_Implementation
    dsimp only
    split_ifs <;> simp [hst]

/-! ## Runs of damage -/

/-- One `ReceiveDamage` call: the cells stay, and `PlantKilled` is broadcast
exactly when Health goes from > 0 to <= 0. -/
theorem APlant.ReceiveDamage_step (G : UGridLibrary) (p : APlant) (Amount : Int) :
    (APlant.ReceiveDamage G p Amount).1.SubTileLocations = p.SubTileLocations ∧
    Broadcasts (APlant.ReceiveDamage G p Amount).2.2 =
      if 0 < p.Health ∧ (APlant.ReceiveDamage G p Amount).1.Health ≤ 0
      then [(PlantKilled, p.SubTileLocations)] else [] := by
  cases h : p.bIsFinishedPlanting
  · rw [APlant.ReceiveDamage_of_not_finished G p Amount h]
    refine ⟨rfl, ?_⟩
    have : ¬ (0 < p.Health ∧ p.Health ≤ 0) := by omega
    simp only [if_neg this]
    rfl
  · rw [APlant.ReceiveDamage_of_finished G p Amount h]
    refine ⟨rfl, ?_⟩
    dsimp only
    by_cases hk : WrapInt32 (p.Health - max 0 Amount) ≤ 0 ∧ 0 < p.Health
    · rw [if_pos hk, if_pos ⟨hk.2, hk.1⟩]
      rfl
    · rw [if_neg hk, if_neg (fun h' => hk ⟨h'.2, h'.1⟩)]
      rfl

/-- One `ReceiveDamage` call whose subtraction stays in the 32-bit range: Health
does not go up, and it goes down by max 0 Amount at most. -/
theorem APlant.ReceiveDamage_Health_of_no_wrap (G : UGridLibrary) (p : APlant) (Amount : Int)
    (hH : IsInt32 p.Health) (hlow : -2147483648 ≤ p.Health - max 0 Amount) :
    (APlant.ReceiveDamage G p Amount).1.Health ≤ p.Health ∧
    p.Health - max 0 Amount ≤ (APlant.ReceiveDamage G p Amount).1.Health := by
  cases h : p.bIsFinishedPlanting
  · rw [APlant.ReceiveDamage_of_not_finished G p Amount h]
    dsimp only
    omega
  · rw [APlant.ReceiveDamage_of_finished G p Amount h]
    dsimp only
    unfold IsInt32 at hH
    rw [WrapInt32_of_IsInt32 _ (by unfold IsInt32; omega)]
    omega

theorem sum_max_zero_nonneg (Amounts : List Int) :
    0 ≤ (Amounts.map (fun a => max 0 a)).sum := by
  induction Amounts with
  | nil => simp
  | cons a as ih =>
    simp only [List.map_cons, List.sum_cons]
    omega

/-- A run of `ReceiveDamage` calls in which no subtraction leaves the 32-bit
range: Health does not go up, it goes down by the sum of the non-negative
amounts at most, and `PlantKilled` is broadcast once if the run takes Health
from > 0 to <= 0 and not at all otherwise. -/
theorem APlant.ReceiveDamages_run (G : UGridLibrary) (Amounts : List Int) :
    ∀ p : APlant, IsInt32 p.Health →
      -2147483648 ≤ p.Health - (Amounts.map (fun a => max 0 a)).sum →
      (APlant.ReceiveDamages G p Amounts).1.Health ≤ p.Health ∧
      p.Health - (Amounts.map (fun a => max 0 a)).sum ≤
        (APlant.ReceiveDamages G p Amounts).1.Health ∧
      Broadcasts (APlant.ReceiveDamages G p Amounts).2.2 =
        if 0 < p.Health ∧ (APlant.ReceiveDamages G p Amounts).1.Health ≤ 0
        then [(PlantKilled, p.SubTileLocations)] else [] := by
  induction Amounts with
  | nil =>
    intro p _ _
    have : ¬ (0 < p.Health ∧ p.Health ≤ 0) := by omega
    simp only [APlant.ReceiveDamages, if_neg this, List.map_nil, List.sum_nil]
    exact ⟨le_refl _, by omega, rfl⟩
  | cons a as ih =>
    intro p hH hsum
    simp only [List.map_cons, List.sum_cons] at hsum ⊢
    have hnn := sum_max_zero_nonneg as
    obtain ⟨hsub, hb⟩ := APlant.ReceiveDamage_step G p a
    obtain ⟨hle, hge⟩ := APlant.ReceiveDamage_Health_of_no_wrap G p a hH (by omega)
    have hH' : IsInt32 (APlant.ReceiveDamage G p a).1.Health := by
      unfold IsInt32 at hH ⊢
      omega
    obtain ⟨ihle, ihge, ihb⟩ := ih (APlant.ReceiveDamage G p a).1 hH' (by omega)
    simp only [APlant.ReceiveDamages]
    refine ⟨le_trans ihle hle, by omega, ?_⟩
    rw [Broadcasts_append, hb, ihb, hsub]
    by_cases h1 : 0 < p.Health
    · by_cases h2 : (APlant.ReceiveDamage G p a).1.Health ≤ 0
      · have h3 : (APlant.ReceiveDamages G (APlant.ReceiveDamage G p a).1 as).1.Health ≤ 0 :=
          le_trans ihle h2
        have h4 : ¬ 0 < (APlant.ReceiveDamage G p a).1.Health := by omega
        simp [h1, h2, h3, h4]
      · have h4 : 0 < (APlant.ReceiveDamage G p a).1.Health := by omega
        simp [h1, h2, h4]
    · have h4 : ¬ 0 < (APlant.ReceiveDamage G p a).1.Health := by omega
      simp [h1, h4]

/-- A run of calls is the run of its first part followed by the run of the rest
from the state the first part leaves. -/
theorem APlant.ReceiveDamages_append (G : UGridLibrary) (Before After : List Int) :
    ∀ p : APlant,
      (APlant.ReceiveDamages G p (Before ++ After)).1 =
        (APlant.ReceiveDamages G (APlant.ReceiveDamages G p Before).1 After).1 := by
  induction Before with
  | nil =>
    intro p
    rfl
  | cons a as ih =>
    intro p
    simp only [List.cons_append, APlant.ReceiveDamages]
    exact ih _

/-- Counterexample to C19 as stated: it is not the case that over every run of
`ReceiveDamage` calls Health never goes up and `PlantKilled` fires at most once.
On a plant of Health 3 that has finished planting, the damages 2147483647,
2147483647 take Health to -2147483644 and then, by 32-bit wrap-around, up to 5;
a further damage of 5 kills the plant a second time, so `PlantKilled` is
broadcast twice. -/
theorem ReceiveDamage_run_wraps_counterexample :
    (APlant.ReceiveDamages SampleGridLibrary (SamplePlant 3 0 1) [2147483647]).1.Health =
      -2147483644 ∧
    (APlant.ReceiveDamages SampleGridLibrary (SamplePlant 3 0 1)
      [2147483647, 2147483647]).1.Health = 5 ∧
    Broadcasts (APlant.ReceiveDamages SampleGridLibrary (SamplePlant 3 0 1)
      [2147483647, 2147483647, 5]).2.2 =
        [(PlantKilled, {(0, 0)}), (PlantKilled, {(0, 0)})] ∧
    ¬ (∀ (G : UGridLibrary) (p : APlant) (Amounts : List Int),
        IsInt32 p.Health → (∀ a ∈ Amounts, IsInt32 a) →
          (APlant.ReceiveDamages G p Amounts).1.Health ≤ p.Health ∧
          (Broadcasts (APlant.ReceiveDamages G p Amounts).2.2).length ≤ 1) := by
  have hb : Broadcasts (APlant.ReceiveDamages SampleGridLibrary (SamplePlant 3 0 1)
      [2147483647, 2147483647, 5]).2.2 =
        [(PlantKilled, {(0, 0)}), (PlantKilled, {(0, 0)})] := by decide
  refine ⟨by decide, by decide, hb, fun h => ?_⟩
  have h1 := (h SampleGridLibrary (SamplePlant 3 0 1) [2147483647, 2147483647, 5]
    (by unfold IsInt32; decide) (by unfold IsInt32; decide)).2
  rw [hb] at h1
  exact absurd h1 (by decide)

/-- C19 (amended): over every run of `ReceiveDamage` calls on one plant in which
no subtraction leaves the 32-bit range (Health minus the sum of the non-negative
amounts is at least -2147483648), Health never goes up, neither over the run
nor from any of its prefixes to the whole; the `PlantKilled` broadcast fires at
most once in the run, exactly if the run takes Health from > 0 to <= 0; and a
plant whose Health is <= 0 never broadcasts again in such a run. In every call,
`PlantKilled` is broadcast exactly when that call takes Health from > 0 to
<= 0. -/
theorem ReceiveDamage_run_without_wrap_kills_at_most_once (G : UGridLibrary) (p : APlant)
    (Amounts : List Int) (hH : IsInt32 p.Health)
    (hsum : -2147483648 ≤ p.Health - (Amounts.map (fun a => max 0 a)).sum) :
    (APlant.ReceiveDamages G p Amounts).1.Health ≤ p.Health ∧
    (∀ Before After : List Int, Amounts = Before ++ After →
      (APlant.ReceiveDamages G p Amounts).1.Health ≤
        (APlant.ReceiveDamages G p Before).1.Health) ∧
    (Broadcasts (APlant.ReceiveDamages G p Amounts).2.2).length ≤ 1 ∧
    Broadcasts (APlant.ReceiveDamages G p Amounts).2.2 =
      (if 0 < p.Health ∧ (APlant.ReceiveDamages G p Amounts).1.Health ≤ 0
        then [(PlantKilled, p.SubTileLocations)] else []) ∧
    (∀ (q : APlant) (Amount : Int),
      Broadcasts (APlant.ReceiveDamage G q Amount).2.2 =
        if 0 < q.Health ∧ (APlant.ReceiveDamage G q Amount).1.Health ≤ 0
        then [(PlantKilled, q.SubTileLocations)] else []) ∧
    (∀ (q : APlant) (Amount : Int), IsInt32 q.Health →
      -2147483648 ≤ q.Health - max 0 Amount →
        (APlant.ReceiveDamage G q Amount).1.Health ≤ q.Health) ∧
    (∀ (q : APlant) (Later : List Int), IsInt32 q.Health → q.Health ≤ 0 →
      -2147483648 ≤ q.Health - (Later.map (fun a => max 0 a)).sum →
        Broadcasts (APlant.ReceiveDamages G q Later).2.2 = []) := by
  obtain ⟨hle, _, hb⟩ := APlant.ReceiveDamages_run G Amounts p hH hsum
  refine ⟨hle, fun Before After hsplit => ?_, ?_, hb, fun q a => ?_, fun q a hq hlow => ?_,
    fun q Later hq hdead hlow => ?_⟩
  · subst hsplit
    simp only [List.map_append, List.sum_append] at hsum
    have hB := sum_max_zero_nonneg Before
    have hA := sum_max_zero_nonneg After
    obtain ⟨hBle, hBge, _⟩ := APlant.ReceiveDamages_run G Before p hH (by omega)
    have hH' : IsInt32 (APlant.ReceiveDamages G p Before).1.Health := by
      unfold IsInt32 at hH ⊢
      omega
    rw [APlant.ReceiveDamages_append]
    exact (APlant.ReceiveDamages_run G After _ hH' (by omega)).1
  · rw [hb]
    split <;> simp
  · exact (APlant.ReceiveDamage_step G q a).2
  · exact (APlant.ReceiveDamage_Health_of_no_wrap G q a hq hlow).1
  · rw [(APlant.ReceiveDamages_run G Later q hq hlow).2.2, if_neg]
    intro h
    omega

/-- Witness of C19 (amended): Health 3 and the damages 2, -5, 2, 2: Health ends
at -3, the negative amount heals nothing, and `PlantKilled` is broadcast once. -/
theorem ReceiveDamage_run_without_wrap_kills_at_most_once_witness :
    (APlant.ReceiveDamages SampleGridLibrary (SamplePlant 3 0 1) [2, -5, 2, 2]).1.Health = -3 ∧
    Broadcasts (APlant.ReceiveDamages SampleGridLibrary (SamplePlant 3 0 1) [2, -5, 2, 2]).2.2 =
      [(PlantKilled, {(0, 0)})] ∧
    Broadcasts (APlant.ReceiveDamages SampleGridLibrary (SamplePlant 0 0 1) [2, 2]).2.2 = [] := by
  have h := ReceiveDamage_run_without_wrap_kills_at_most_once SampleGridLibrary
    (SamplePlant 3 0 1) [2, -5, 2, 2] (by unfold IsInt32; decide) (by decide)
  refine ⟨by decide, ?_, h.2.2.2.2.2.2 (SamplePlant 0 0 1) [2, 2] (by unfold IsInt32; decide)
    (by decide) (by decide)⟩
  rw [h.2.2.2.1]
  decide

/-! ## Destroying trash -/

/-- C18: when an active trash is destroyed, `OnDeactivated` is forwarded to every
effect component with the full effect location set, and then the base-class
`Destroyed` runs. In a successful `PickUp` of an active trash the events are the
`TrashPickedUp` broadcast, what the trash's own handler forwards for it, then that
`OnDeactivated`, then the base-class `Destroyed`; every effect component receives
`OnDeactivated` exactly once. Destroying an inactive trash forwards nothing. The
trash occupies at least one cell and `ScaleShapeUp` returns a superset of the
cells it is given. -/
theorem Destroyed_deactivates_active_trash (G : UGridLibrary) (t : ATrash)
    (hcells : t.SubTileLocations.Nonempty)
    (hsuperset : ∀ r, t.SubTileLocations ⊆ G.ScaleShapeUp t.SubTileLocations r) :
    (t.bActive = true →
      (ATrash.Destroyed G t).2 =
          ActivateEffectOnComponents t.NumEffectComponents OnDeactivated
            (G.ScaleShapeUp t.SubTileLocations t.Range) ++ [Event.SuperDestroyed] ∧
      ∀ EnergyReserve : Int, EnergyReserve ≥ t.PickUpCost →
        (ATrash.PickUp G t EnergyReserve).2.1 = true ∧
        (ATrash.PickUp G t EnergyReserve).2.2.2 =
          Event.Broadcast TrashPickedUp t.SubTileLocations ::
            ((ATrash.ReceiveEffectTrigger G t TrashPickedUp t.SubTileLocations).2 ++
              (ActivateEffectOnComponents t.NumEffectComponents OnDeactivated
                (G.ScaleShapeUp t.SubTileLocations t.Range) ++ [Event.SuperDestroyed])) ∧
        ∀ c, c < t.NumEffectComponents →
          LocationsReceivedBy c OnDeactivated (ATrash.PickUp G t EnergyReserve).2.2.2 =
            [G.ScaleShapeUp t.SubTileLocations t.Range]) ∧
    (t.bActive = false →
      (ATrash.Destroyed G t).2 = [Event.SuperDestroyed] ∧
      (ATrash.Destroy G t).2 = [Event.SuperDestroyed]) := by
  have hne : G.ScaleShapeUp t.SubTileLocations t.Range ≠ ∅ :=
    (hcells.mono (hsuperset t.Range)).ne_empty
  have hst : (ATrash.ReceiveEffectTrigger G t TrashPickedUp t.SubTileLocations).1 = t :=
    (ATrash.ReceiveEffectTrigger_state_and_broadcasts G t _ _).1
  constructor
  · intro hactive
    have hd : (ATrash.Destroyed G t).2 =
        ActivateEffectOnComponents t.NumEffectComponents OnDeactivated
          (G.ScaleShapeUp t.SubTileLocations t.Range) ++ [Event.SuperDestroyed] := by
      simp [ATrash.Destroyed, ATrash.ReceiveEffectTrigger, ATrash.GetEffectLocations, IsEmpty,
        hactive, hne]
    refine ⟨hd, fun e he => ?_⟩
    have hlog : (ATrash.PickUp G t e).2.2.2 =
        Event.Broadcast TrashPickedUp t.SubTileLocations ::
          ((ATrash.ReceiveEffectTrigger G t TrashPickedUp t.SubTileLocations).2 ++
            (ActivateEffectOnComponents t.NumEffectComponents OnDeactivated
              (G.ScaleShapeUp t.SubTileLocations t.Range) ++ [Event.SuperDestroyed])) := by
      simp only [ATrash.PickUp, if_pos he, ATrash.Broadcast, ATrash.Destroy, hst, hd,
        List.cons_append]
    refine ⟨by simp [ATrash.PickUp, he], hlog, fun c hc => ?_⟩
    rw [hlog]
    have hcons : ∀ l : List Event,
        LocationsReceivedBy c OnDeactivated
          (Event.Broadcast TrashPickedUp t.SubTileLocations :: l) =
        LocationsReceivedBy c OnDeactivated l := fun l => rfl
    have hself : LocationsReceivedBy c OnDeactivated
        (ATrash.ReceiveEffectTrigger G t TrashPickedUp t.SubTileLocations).2 = [] := by
      unfold ATrash.ReceiveEffectTrigger
      dsimp only
      split_ifs <;>
        simp [LocationsReceivedBy_ActivateEffectOnComponents, hc, LocationsReceivedBy_nil]
    rw [hcons, LocationsReceivedBy_append, LocationsReceivedBy_append, hself,
      LocationsReceivedBy_ActivateEffectOnComponents _ _ _ _ _ hc]
    rfl
  · intro hinactive
    have hd : (ATrash.Destroyed G t).2 = [Event.SuperDestroyed] := by
      simp [ATrash.Destroyed, ATrash.ReceiveEffectTrigger_of_inactive G t _ _ hinactive]
    exact ⟨hd, by simp [ATrash.Destroy, hd]⟩

/-- Witness of C18: an active trash of range 1 on `(0,0)` under square scaling,
picked up with reserve 5 at cost 3: the component receives `OnDeactivated` once,
with the 9 cells around `(0,0)`; destroying the same trash while inactive only
runs the base-class `Destroyed`. -/
theorem Destroyed_deactivates_active_trash_witness :
    LocationsReceivedBy 0 OnDeactivated
        (ATrash.PickUp SampleGridLibrary (SampleTrash true 1 3) 5).2.2.2 =
      [ScaleShapeUpSquare {(0, 0)} 1] ∧
    (ATrash.Destroyed SampleGridLibrary (SampleTrash false 1 3)).2 = [Event.SuperDestroyed] := by
  have ha := (Destroyed_deactivates_active_trash SampleGridLibrary (SampleTrash true 1 3)
    ⟨(0, 0), by decide⟩ (fun r => ScaleShapeUpSquare_superset _ r)).1 (by decide)
  have hi := (Destroyed_deactivates_active_trash SampleGridLibrary (SampleTrash false 1 3)
    ⟨(0, 0), by decide⟩ (fun r => ScaleShapeUpSquare_superset _ r)).2 (by decide)
  exact ⟨(ha.2 5 (by decide)).2.2 0 (by decide), hi.1⟩

/-! ## Field strengths of a tile -/

/-- The stored strengths after `ApplyField`. -/
theorem ATile.ApplyField_FieldsToStrengths (t : ATile) (T T' : EFieldType) :
    (t.ApplyField T).FieldsToStrengths T' =
      if T' = T then
        (match t.FieldsToStrengths T with
          | some v => some (v + 1)
          | none => some 1)
      else t.FieldsToStrengths T' := by
  unfold ATile.ApplyField
  cases h : t.FieldsToStrengths T <;>
    by_cases hT : T' = T <;>
    simp [TMapFieldStrengths.Contains, TMapFieldStrengths.FindRef, TMapFieldStrengths.Add,
      Function.update, h, hT]

/-- The stored strengths after `RemoveField`. -/
theorem ATile.RemoveField_FieldsToStrengths (t : ATile) (T T' : EFieldType) :
    (t.RemoveField T).FieldsToStrengths T' =
      if T' = T then
        (match t.FieldsToStrengths T with
          | some v => if v - 1 > 0 then some (v - 1) else none
          | none => none)
      else t.FieldsToStrengths T' := by
  unfold ATile.RemoveField
  cases h : t.FieldsToStrengths T with
  | none =>
    by_cases hT : T' = T
    · subst hT
      simp [TMapFieldStrengths.Contains, h]
    · simp [TMapFieldStrengths.Contains, h, hT]
  | some v =>
    by_cases hv : v - 1 > 0 <;> by_cases hT : T' = T <;>
      simp [TMapFieldStrengths.Contains, TMapFieldStrengths.FindRef, TMapFieldStrengths.Add,
        TMapFieldStrengths.Remove, Function.update, h, hT, hv]

/-- The step of the refinement for `ApplyField`. -/
theorem ATile.ApplyField_refines (t : ATile) (c : EFieldType → Nat) (T : EFieldType)
    (h : t.FieldsToStrengths = FieldCounters.ToMap c) :
    (t.ApplyField T).FieldsToStrengths = FieldCounters.ToMap (FieldCounters.Apply c T) := by
  funext T'
  rw [ATile.ApplyField_FieldsToStrengths, h]
  unfold FieldCounters.ToMap FieldCounters.Apply
  by_cases hT : T' = T
  · subst hT
    by_cases hc : 0 < c T'
    · simp [hc]
    · have : c T' = 0 := by omega
      simp [this]
  · simp [hT, Function.update]

/-- The step of the refinement for `RemoveField`. -/
theorem ATile.RemoveField_refines (t : ATile) (c : EFieldType → Nat) (T : EFieldType)
    (h : t.FieldsToStrengths = FieldCounters.ToMap c) :
    (t.RemoveField T).FieldsToStrengths = FieldCounters.ToMap (FieldCounters.Remove c T) := by
  funext T'
  rw [ATile.RemoveField_FieldsToStrengths, h]
  unfold FieldCounters.ToMap FieldCounters.Remove
  by_cases hT : T' = T
  · subst hT
    by_cases hc : c T' = 0
    · simp [hc]
    · have hpos : 0 < c T' := by omega
      by_cases h1 : c T' = 1
      · simp [h1]
      · have h2 : (c T' : Int) - 1 > 0 := by omega
        have h3 : 0 < c T' - 1 := by omega
        have h4 : ((c T' - 1 : Nat) : Int) = (c T' : Int) - 1 := by omega
        simp [hc, hpos, h2, h3, h4, Function.update]
  · by_cases hc : c T = 0
    · simp [hT, hc]
    · simp [hT, hc, Function.update]

/-- The refinement over a run of calls. -/
theorem ATile.FieldCalls_refines (calls : List ATileFieldCall) :
    ∀ (t : ATile) (c : EFieldType → Nat), t.FieldsToStrengths = FieldCounters.ToMap c →
      (t.FieldCalls calls).FieldsToStrengths =
        FieldCounters.ToMap (FieldCounters.Calls c calls) := by
  induction calls with
  | nil =>
    intro t c h
    exact h
  | cons call calls ih =>
    intro t c h
    cases call with
    | ApplyField T => exact ih _ _ (ATile.ApplyField_refines t c T h)
    | RemoveField T => exact ih _ _ (ATile.RemoveField_refines t c T h)

/-- C14: a tile's `FieldsToStrengths`, starting empty, behaves as one counter per
field type that saturates at zero. After every run of `ApplyField` and
`RemoveField` calls the map is the one that stands for the counters of the
specification: a type is a key exactly when its counter is > 0, and then the
stored strength is the counter, so every stored strength is >= 1. In the
specification `ApplyField(T)` adds 1 to the counter of T and `RemoveField(T)`
subtracts 1 unless the counter is 0; neither the specification nor the code
changes the entry of another type. -/
theorem FieldsToStrengths_refines_counters (calls : List ATileFieldCall) :
    (ATile.Constructed.FieldCalls calls).FieldsToStrengths =
        FieldCounters.ToMap (FieldCounters.Calls (fun _ => 0) calls) ∧
    (∀ T : EFieldType,
      ((ATile.Constructed.FieldCalls calls).FieldsToStrengths.Contains T = true ↔
        0 < FieldCounters.Calls (fun _ => 0) calls T)) ∧
    (∀ (T : EFieldType) (v : Int),
      (ATile.Constructed.FieldCalls calls).FieldsToStrengths T = some v →
        v = FieldCounters.Calls (fun _ => 0) calls T ∧ 1 ≤ v) ∧
    (∀ (c : EFieldType → Nat) (T : EFieldType),
      FieldCounters.Apply c T T = c T + 1 ∧
      FieldCounters.Remove c T T = c T - 1 ∧
      (c T = 0 → FieldCounters.Remove c T = c) ∧
      ∀ T', T' ≠ T → FieldCounters.Apply c T T' = c T' ∧ FieldCounters.Remove c T T' = c T') ∧
    (∀ (t : ATile) (T T' : EFieldType), T' ≠ T →
      (t.ApplyField T).FieldsToStrengths T' = t.FieldsToStrengths T' ∧
      (t.RemoveField T).FieldsToStrengths T' = t.FieldsToStrengths T') := by
  have href := ATile.FieldCalls_refines calls ATile.Constructed (fun _ => 0)
    (by funext T; simp [ATile.Constructed, FieldCounters.ToMap])
  refine ⟨href, fun T => ?_, fun T v hv => ?_, fun c T => ⟨?_, ?_, ?_, fun T' hT => ⟨?_, ?_⟩⟩,
    fun t T T' hT => ⟨?_, ?_⟩⟩
  · rw [href]
    unfold TMapFieldStrengths.Contains FieldCounters.ToMap
    by_cases hc : 0 < FieldCounters.Calls (fun _ => 0) calls T <;> simp [hc]
  · rw [href] at hv
    unfold FieldCounters.ToMap at hv
    by_cases hc : 0 < FieldCounters.Calls (fun _ => 0) calls T
    · rw [if_pos hc] at hv
      injection hv with hv
      subst hv
      exact ⟨rfl, by exact_mod_cast hc⟩
    · rw [if_neg hc] at hv
      cases hv
  · simp [FieldCounters.Apply]
  · by_cases hc : c T = 0 <;> simp [FieldCounters.Remove, hc]
  · intro hc
    simp [FieldCounters.Remove, hc]
  · simp [FieldCounters.Apply, Function.update, hT]
  · by_cases hc : c T = 0 <;> simp [FieldCounters.Remove, hc, Function.update, hT]
  · rw [ATile.ApplyField_FieldsToStrengths, if_neg hT]
  · rw [ATile.RemoveField_FieldsToStrengths, if_neg hT]

/-- Witness of C14: on a constructed tile, two `ApplyField` of type 0 store the
strength 2, a `RemoveField` after them stores 1, a second one removes the key,
and a third one is a no-op; type 1 is never a key. -/
theorem FieldsToStrengths_refines_counters_witness :
    (ATile.Constructed.FieldCalls
      [ATileFieldCall.ApplyField ⟨0⟩, ATileFieldCall.ApplyField ⟨0⟩]).FieldsToStrengths ⟨0⟩
        = some 2 ∧
    (ATile.Constructed.FieldCalls
      [ATileFieldCall.ApplyField ⟨0⟩, ATileFieldCall.ApplyField ⟨0⟩,
        ATileFieldCall.RemoveField ⟨0⟩]).FieldsToStrengths ⟨0⟩ = some 1 ∧
    (ATile.Constructed.FieldCalls
      [ATileFieldCall.ApplyField ⟨0⟩, ATileFieldCall.ApplyField ⟨0⟩,
        ATileFieldCall.RemoveField ⟨0⟩, ATileFieldCall.RemoveField ⟨0⟩,
        ATileFieldCall.RemoveField ⟨0⟩]).FieldsToStrengths ⟨0⟩ = none ∧
    (ATile.Constructed.FieldCalls
      [ATileFieldCall.ApplyField ⟨0⟩, ATileFieldCall.ApplyField ⟨0⟩]).FieldsToStrengths ⟨1⟩
        = none := by
  have h := (FieldsToStrengths_refines_counters
    [ATileFieldCall.ApplyField ⟨0⟩, ATileFieldCall.ApplyField ⟨0⟩]).1
  refine ⟨?_, by decide, by decide, ?_⟩
  · rw [h]
    decide
  · rw [h]
    decide

/-! ## Applying and removing a field -/

theorem ATile.eq_of_FieldsToStrengths (a b : ATile)
    (h : a.FieldsToStrengths = b.FieldsToStrengths) : a = b := by
  cases a
  cases b
  simp only at h
  rw [h]

/-- Removing a field right after applying it restores the tile, provided the
stored strength of the type, if any, is >= 1. -/
theorem ATile.RemoveField_ApplyField (t : ATile) (T : EFieldType)
    (hpos : ∀ v, t.FieldsToStrengths T = some v → 1 ≤ v) :
    (t.ApplyField T).RemoveField T = t := by
  apply ATile.eq_of_FieldsToStrengths
  funext T'
  rw [ATile.RemoveField_FieldsToStrengths]
  by_cases hT : T' = T
  · subst hT
    rw [if_pos rfl, ATile.ApplyField_FieldsToStrengths, if_pos rfl]
    cases h : t.FieldsToStrengths T' with
    | none => simp
    | some v =>
      have := hpos v h
      have h0 : 0 < v := by omega
      simp [h0]
  · rw [if_neg hT, ATile.ApplyField_FieldsToStrengths, if_neg hT]

/-- C12: idempotence of `UApplyField::Affect`. The first `Affect(S)` passes the
cells of S not yet effected to the ground planes, calls `ATile::ApplyField` on
the occupants of S not yet effected, and (in the base class) records S. A second
`Affect(S)` right after it, on the same grid occupancy, passes the empty cell set
to the ground planes, calls `ATile::ApplyField` on no tile, and leaves
`EffectedTiles`, `EffectedLocations` and every tile unchanged; when a ground
plane applies nothing for the empty cell set, the whole component state is
unchanged. -/
theorem Affect_twice_is_idempotent (W : UWorld) (e : UApplyField) (S : Finset FIntPoint) :
    (UApplyField.Affect W e S).2.2.GroundPlaneLocations = S \ e.EffectedLocations ∧
    (UApplyField.Affect W e S).2.2.Tiles = W.OverlapShape S \ e.EffectedTiles ∧
    (UApplyField.Affect W e S).2.1.EffectedLocations = e.EffectedLocations ∪ S ∧
    (UApplyField.Affect (UApplyField.Affect W e S).1 (UApplyField.Affect W e S).2.1 S
      ).2.2.GroundPlaneLocations = ∅ ∧
    (UApplyField.Affect (UApplyField.Affect W e S).1 (UApplyField.Affect W e S).2.1 S
      ).2.2.Tiles = ∅ ∧
    (UApplyField.Affect (UApplyField.Affect W e S).1 (UApplyField.Affect W e S).2.1 S
      ).2.1.EffectedTiles = (UApplyField.Affect W e S).2.1.EffectedTiles ∧
    (UApplyField.Affect (UApplyField.Affect W e S).1 (UApplyField.Affect W e S).2.1 S
      ).2.1.EffectedLocations = (UApplyField.Affect W e S).2.1.EffectedLocations ∧
    (UApplyField.Affect (UApplyField.Affect W e S).1 (UApplyField.Affect W e S).2.1 S
      ).1.Tiles = (UApplyField.Affect W e S).1.Tiles ∧
    ((∀ g, W.GroundPlaneApplyField g e.FieldType ∅ = false) →
      (UApplyField.Affect (UApplyField.Affect W e S).1 (UApplyField.Affect W e S).2.1 S
        ).2.1 = (UApplyField.Affect W e S).2.1) := by
  have hT : W.OverlapShape S \ (e.EffectedTiles ∪ (W.OverlapShape S \ e.EffectedTiles)) = ∅ := by
    ext i
    simp only [Finset.mem_sdiff, Finset.mem_union, Finset.not_mem_empty, iff_false]
    tauto
  have hL : S \ (e.EffectedLocations ∪ S) = ∅ :=
    Finset.sdiff_eq_empty_iff_subset.mpr Finset.subset_union_right
  refine ⟨rfl, rfl, rfl, ?_, ?_, ?_, ?_, ?_, ?_⟩
  · simp only [UApplyField.Affect, UTileEffect.Affect, hL]
  · simp only [UApplyField.Affect, UTileEffect.Affect, hT]
  · simp only [UApplyField.Affect, UTileEffect.Affect, hT, Finset.union_empty]
  · simp only [UApplyField.Affect, UTileEffect.Affect, Finset.union_assoc, Finset.union_self]
  · funext i
    simp only [UApplyField.Affect, UTileEffect.Affect, hT, Finset.not_mem_empty, if_false]
  · intro hno
    simp only [UApplyField.Affect, UTileEffect.Affect, hT, hL, Finset.union_empty,
      Finset.union_assoc, Finset.union_self]
    congr 1
    split_ifs with h1 h2
    all_goals first
      | rfl
      | (rw [h2]
         ext g
         simp [hno])

/-- Witness of C12: in the sample world, `Affect` on the cells `(0,0)` and `(1,0)`
calls `ApplyField` on the tiles 0 and 1 and stores strength 1 on them; the second
`Affect` on the same cells calls it on no tile and the strength is still 1. -/
theorem Affect_twice_is_idempotent_witness :
    (UApplyField.Affect SampleWorld SampleApplyField {(0, 0), (1, 0)}).2.2.Tiles = {0, 1} ∧
    (UApplyField.Affect (UApplyField.Affect SampleWorld SampleApplyField {(0, 0), (1, 0)}).1
      (UApplyField.Affect SampleWorld SampleApplyField {(0, 0), (1, 0)}).2.1
      {(0, 0), (1, 0)}).2.2.Tiles = ∅ ∧
    ((UApplyField.Affect (UApplyField.Affect SampleWorld SampleApplyField {(0, 0), (1, 0)}).1
      (UApplyField.Affect SampleWorld SampleApplyField {(0, 0), (1, 0)}).2.1
      {(0, 0), (1, 0)}).1.Tiles 0).FieldsToStrengths ⟨0⟩ = some 1 := by
  have h := Affect_twice_is_idempotent SampleWorld SampleApplyField {(0, 0), (1, 0)}
  refine ⟨by decide, h.2.2.2.2.1, ?_⟩
  rw [h.2.2.2.2.2.2.2.1]
  decide

/-- Counterexample to C13 as stated: it is not the case that `Affect(S1);
Unaffect()` restores the field-strength map of every valid tile to its value
before `Affect(S1)`. In the sample world a component first effects the cell
`(0,0)`, which stores strength 1 on tile 0. From that state `Affect` on `(1,0)`
calls `ApplyField` on tile 1 only, and `Unaffect` then calls `RemoveField` on the
tiles 0 and 1: tile 0, which `Affect` on `(1,0)` never touched, loses its
strength. -/
theorem Affect_Unaffect_restore_counterexample :
    ((UApplyField.Affect SampleWorld SampleApplyField {(0, 0)}).1.Tiles 0).FieldsToStrengths ⟨0⟩
      = some 1 ∧
    (UApplyField.Affect (UApplyField.Affect SampleWorld SampleApplyField {(0, 0)}).1
      (UApplyField.Affect SampleWorld SampleApplyField {(0, 0)}).2.1 {(1, 0)}).2.2.Tiles = {1} ∧
    (UApplyField.Unaffect
      (UApplyField.Affect (UApplyField.Affect SampleWorld SampleApplyField {(0, 0)}).1
        (UApplyField.Affect SampleWorld SampleApplyField {(0, 0)}).2.1 {(1, 0)}).1
      (UApplyField.Affect (UApplyField.Affect SampleWorld SampleApplyField {(0, 0)}).1
        (UApplyField.Affect SampleWorld SampleApplyField {(0, 0)}).2.1 {(1, 0)}).2.1
      ).2.2.Tiles = {0, 1} ∧
    ((UApplyField.Unaffect
      (UApplyField.Affect (UApplyField.Affect SampleWorld SampleApplyField {(0, 0)}).1
        (UApplyField.Affect SampleWorld SampleApplyField {(0, 0)}).2.1 {(1, 0)}).1
      (UApplyField.Affect (UApplyField.Affect SampleWorld SampleApplyField {(0, 0)}).1
        (UApplyField.Affect SampleWorld SampleApplyField {(0, 0)}).2.1 {(1, 0)}).2.1
      ).1.Tiles 0).FieldsToStrengths ⟨0⟩ = none ∧
    ¬ (∀ (W : UWorld) (e : UApplyField) (S1 : Finset FIntPoint),
        (∀ i T v, (W.Tiles i).FieldsToStrengths T = some v → 1 ≤ v) →
        ∀ i, W.IsValidTile i = true →
          (UApplyField.Unaffect (UApplyField.Affect W e S1).1
            (UApplyField.Affect W e S1).2.1).1.Tiles i = W.Tiles i) := by
  have hnone : ((UApplyField.Unaffect
      (UApplyField.Affect (UApplyField.Affect SampleWorld SampleApplyField {(0, 0)}).1
        (UApplyField.Affect SampleWorld SampleApplyField {(0, 0)}).2.1 {(1, 0)}).1
      (UApplyField.Affect (UApplyField.Affect SampleWorld SampleApplyField {(0, 0)}).1
        (UApplyField.Affect SampleWorld SampleApplyField {(0, 0)}).2.1 {(1, 0)}).2.1
      ).1.Tiles 0).FieldsToStrengths ⟨0⟩ = none := by decide
  have hsome : ((UApplyField.Affect SampleWorld SampleApplyField
      {(0, 0)}).1.Tiles 0).FieldsToStrengths ⟨0⟩ = some 1 := by decide
  refine ⟨hsome, by decide, by decide, hnone, fun h => ?_⟩
  have hpos : ∀ i T v,
      ((UApplyField.Affect SampleWorld SampleApplyField {(0, 0)}).1.Tiles i).FieldsToStrengths T
        = some v → 1 ≤ v := by
    intro i T v hv
    simp only [UApplyField.Affect] at hv
    split at hv
    · rw [ATile.ApplyField_FieldsToStrengths] at hv
      split at hv
      · simp only [SampleWorld, ATile.Constructed] at hv
        injection hv with hv
        omega
      · simp [SampleWorld, ATile.Constructed] at hv
    · simp [SampleWorld, ATile.Constructed] at hv
  have h1 := h (UApplyField.Affect SampleWorld SampleApplyField {(0, 0)}).1
    (UApplyField.Affect SampleWorld SampleApplyField {(0, 0)}).2.1 {(1, 0)} hpos 0 rfl
  rw [h1, hsome] at hnone
  cases hnone

/-- C13 (amended): complementarity of `UApplyField::Affect` and `Unaffect`. From
any component state, after `Affect(S1); Unaffect(); Affect(S2)` the component's
`EffectedLocations` is S2 and its `EffectedTiles` is the set of occupants of S2
(in whatever world the last call runs); `Unaffect` leaves `EffectedTiles` and
`EffectedLocations` empty and calls `RemoveField` once on every valid tile that
was effected before or that `Affect(S1)` called `ApplyField` on. On a component
that had effected nothing before `Affect(S1)`, over tiles whose stored strengths
are >= 1, `Unaffect` calls `RemoveField` on exactly the valid tiles `Affect(S1)`
called `ApplyField` on, passes to the valid ground planes that `Affect(S1)` saved
the cell set S1 that `Affect(S1)` passed, and restores the field-strength map of
every valid tile to its value before `Affect(S1)`. -/
theorem Affect_Unaffect_complementary_from_rest (W : UWorld) (e : UApplyField)
    (S1 S2 : Finset FIntPoint) :
    (∀ W3 : UWorld,
      (UApplyField.Affect W3
        (UApplyField.Unaffect (UApplyField.Affect W e S1).1 (UApplyField.Affect W e S1).2.1).2.1
        S2).2.1.EffectedLocations = S2 ∧
      (UApplyField.Affect W3
        (UApplyField.Unaffect (UApplyField.Affect W e S1).1 (UApplyField.Affect W e S1).2.1).2.1
        S2).2.1.EffectedTiles = W3.OverlapShape S2) ∧
    (UApplyField.Unaffect (UApplyField.Affect W e S1).1
      (UApplyField.Affect W e S1).2.1).2.1.EffectedTiles = ∅ ∧
    (UApplyField.Unaffect (UApplyField.Affect W e S1).1
      (UApplyField.Affect W e S1).2.1).2.1.EffectedLocations = ∅ ∧
    (UApplyField.Unaffect (UApplyField.Affect W e S1).1
      (UApplyField.Affect W e S1).2.1).2.2.Tiles =
        (e.EffectedTiles ∪ (UApplyField.Affect W e S1).2.2.Tiles).filter
          (fun i => W.IsValidTile i = true) ∧
    (e.EffectedTiles = ∅ → e.EffectedLocations = ∅ →
      (∀ i T v, (W.Tiles i).FieldsToStrengths T = some v → 1 ≤ v) →
      (UApplyField.Affect W e S1).2.2.Tiles = W.OverlapShape S1 ∧
      (UApplyField.Unaffect (UApplyField.Affect W e S1).1
        (UApplyField.Affect W e S1).2.1).2.2.Tiles =
          (UApplyField.Affect W e S1).2.2.Tiles.filter (fun i => W.IsValidTile i = true) ∧
      (UApplyField.Affect W e S1).2.2.GroundPlaneLocations = S1 ∧
      (UApplyField.Unaffect (UApplyField.Affect W e S1).1
        (UApplyField.Affect W e S1).2.1).2.2.GroundPlaneLocations = S1 ∧
      (UApplyField.Unaffect (UApplyField.Affect W e S1).1
        (UApplyField.Affect W e S1).2.1).2.2.GroundPlanes =
          (UApplyField.Affect W e S1).2.1.EffectedGroundPlanes.filter
            (fun g => W.IsValidGroundPlane g = true) ∧
      (∀ i, W.IsValidTile i = true →
        (UApplyField.Unaffect (UApplyField.Affect W e S1).1
          (UApplyField.Affect W e S1).2.1).1.Tiles i = W.Tiles i)) := by
  refine ⟨fun W3 => ⟨?_, ?_⟩, rfl, rfl, rfl, fun hnotiles hnocells hpos =>
    ⟨?_, ?_, ?_, ?_, ?_, fun i hi => ?_⟩⟩
  · simp [UApplyField.Affect, UApplyField.Unaffect, UTileEffect.Affect]
  · simp [UApplyField.Affect, UApplyField.Unaffect, UTileEffect.Affect]
  · simp [UApplyField.Affect, hnotiles]
  · simp [UApplyField.Affect, UApplyField.Unaffect, UTileEffect.Affect, hnotiles]
  · simp [UApplyField.Affect, hnocells]
  · simp [UApplyField.Affect, UApplyField.Unaffect, UTileEffect.Affect, hnocells]
  · simp only [UApplyField.Affect, UApplyField.Unaffect, UTileEffect.Affect,
      Finset.filter_filter, and_self]
  · simp only [UApplyField.Affect, UApplyField.Unaffect, UTileEffect.Affect, hnotiles,
      Finset.empty_union, Finset.sdiff_empty, Finset.mem_filter, hi, and_true]
    by_cases hm : i ∈ W.OverlapShape S1
    · rw [if_pos hm, if_pos hm]
      exact ATile.RemoveField_ApplyField _ _ (hpos i e.FieldType)
    · rw [if_neg hm, if_neg hm]

/-- Witness of C13 (amended): in the sample world, on a component that has
effected nothing, `Affect` on the cells `(0,0)` and `(1,0)` followed by `Unaffect`
calls `RemoveField` on the tiles 0 and 1 and leaves tile 0 as it was; a following
`Affect` on `(2,0)` effects exactly that cell and tile 2. -/
theorem Affect_Unaffect_complementary_from_rest_witness :
    (UApplyField.Unaffect (UApplyField.Affect SampleWorld SampleApplyField {(0, 0), (1, 0)}).1
      (UApplyField.Affect SampleWorld SampleApplyField {(0, 0), (1, 0)}).2.1).2.2.Tiles = {0, 1} ∧
    (UApplyField.Unaffect (UApplyField.Affect SampleWorld SampleApplyField {(0, 0), (1, 0)}).1
      (UApplyField.Affect SampleWorld SampleApplyField {(0, 0), (1, 0)}).2.1).1.Tiles 0 =
        SampleWorld.Tiles 0 ∧
    (UApplyField.Affect SampleWorld
      (UApplyField.Unaffect (UApplyField.Affect SampleWorld SampleApplyField {(0, 0), (1, 0)}).1
        (UApplyField.Affect SampleWorld SampleApplyField {(0, 0), (1, 0)}).2.1).2.1
      {(2, 0)}).2.1.EffectedLocations = {(2, 0)} ∧
    (UApplyField.Affect SampleWorld
      (UApplyField.Unaffect (UApplyField.Affect SampleWorld SampleApplyField {(0, 0), (1, 0)}).1
        (UApplyField.Affect SampleWorld SampleApplyField {(0, 0), (1, 0)}).2.1).2.1
      {(2, 0)}).2.1.EffectedTiles = {2} := by
  have h := Affect_Unaffect_complementary_from_rest SampleWorld SampleApplyField
    {(0, 0), (1, 0)} {(2, 0)}
  have hr := h.2.2.2.2 rfl rfl (by intro i T v hv; simp [SampleWorld, ATile.Constructed] at hv)
  refine ⟨?_, hr.2.2.2.2.2 0 rfl, (h.1 SampleWorld).1, ?_⟩
  · rw [hr.2.1]
    decide
  · rw [(h.1 SampleWorld).2]
    decide

/-! ## Saving resource links -/

/-- The records the loop of `StoreTileResourceData` appends, for any value of the
local `DataToSave` at its start. -/
theorem USyrupSaveGame.StoreTileResourceData_loop (ProducedResources : List UResource) :
    ∀ (DataToSave : FResourceSaveData) (ResourceData : List FResourceSaveData),
      (ProducedResources.foldl
        (fun (s : FResourceSaveData × List FResourceSaveData) EachProducedResource =>
          match EachProducedResource.LinkedSink with
          | some LinkedSink =>
            ({ s.1 with FaucetLocation := LinkedSink.OwnerLocation, SinkName := LinkedSink.Name },
              s.2 ++ [{ s.1 with FaucetLocation := LinkedSink.OwnerLocation,
                                 SinkName := LinkedSink.Name }])
          | none => s)
        (DataToSave, ResourceData)).2 =
      ResourceData ++ ProducedResources.filterMap (fun R => R.LinkedSink.map (fun LinkedSink =>
        ({ SinkLocation := DataToSave.SinkLocation, SinkName := LinkedSink.Name,
           FaucetLocation := LinkedSink.OwnerLocation } : FResourceSaveData))) := by
  induction ProducedResources with
  | nil =>
    intro d acc
    simp
  | cons R Rs ih =>
    intro d acc
    cases hR : R.LinkedSink with
    | none => simpa [List.foldl, hR] using ih d acc
    | some s =>
      simp only [List.foldl, hR]
      rw [ih]
      simp [List.filterMap_cons, hR]

/-- C16 (the code at the failing input, and in general): for a faucet tile at
`(1,1)` with one resource allocated to the sink 7 of the tile at `(3,4)` and one
unallocated resource, `StoreTileResourceData` appends one record, and the member
`FaucetLocation` of that record is `(3,4)`, the location of the sink's owner, not
`(1,1)`. In general the call appends one record per allocated resource, in order,
and none for an unallocated one; each record has the sink's name as `SinkName`,
the location of the sink's owner as `FaucetLocation`, and as `SinkLocation` what
the constructor of the record made of the faucet tile's location. -/
theorem StoreTileResourceData_records :
    USyrupSaveGame.StoreTileResourceData FResourceSaveData.OfFaucetLocation []
        { GridLocation := (1, 1),
          ProducedResources := some [⟨some ⟨(3, 4), 7⟩⟩, ⟨none⟩] } =
      [{ SinkLocation := (0, 0), SinkName := 7, FaucetLocation := (3, 4) }] ∧
    ∀ (MakeData : FIntPoint → FResourceSaveData) (ResourceData : List FResourceSaveData)
      (Location : FIntPoint) (ProducedResources : List UResource),
      USyrupSaveGame.StoreTileResourceData MakeData ResourceData
          { GridLocation := Location, ProducedResources := some ProducedResources } =
        ResourceData ++ ProducedResources.filterMap (fun R => R.LinkedSink.map (fun LinkedSink =>
          ({ SinkLocation := (MakeData Location).SinkLocation, SinkName := LinkedSink.Name,
             FaucetLocation := LinkedSink.OwnerLocation } : FResourceSaveData))) := by
  refine ⟨by decide, fun MakeData ResourceData Location ProducedResources => ?_⟩
  exact USyrupSaveGame.StoreTileResourceData_loop ProducedResources (MakeData Location)
    ResourceData

/-! ## Damage before planting is finished -/

/-- A run of `ReceiveDamage` calls on a plant that has not finished planting
leaves the plant as it is, returns false every time and causes no event. -/
theorem APlant.ReceiveDamages_of_not_finished (G : UGridLibrary) (p : APlant)
    (h : p.bIsFinishedPlanting = false) (Amounts : List Int) :
    APlant.ReceiveDamages G p Amounts = (p, List.replicate Amounts.length false, []) := by
  induction Amounts with
  | nil => rfl
  | cons a as ih =>
    simp only [APlant.ReceiveDamages, APlant.ReceiveDamage_of_not_finished G p a h, ih,
      List.length_cons, List.replicate_succ, List.nil_append]

/-- C21: while a plant has not finished planting, `ReceiveDamage` is a no-op for
every Amount, also one that is at least the plant's Health: it returns false,
leaves Health and the whole plant unchanged, and causes no event, so neither the
`PlantKilled` broadcast nor an `OnDeactivated` on an effect component; the same
holds for every run of such calls. -/
theorem ReceiveDamage_noop_before_planting_finished (G : UGridLibrary) (p : APlant)
    (Amount : Int) (hplanting : p.bIsFinishedPlanting = false) :
    (APlant.ReceiveDamage G p Amount).2.1 = false ∧
    (APlant.ReceiveDamage G p Amount).1.Health = p.Health ∧
    (APlant.ReceiveDamage G p Amount).1 = p ∧
    (APlant.ReceiveDamage G p Amount).2.2 = [] ∧
    Broadcasts (APlant.ReceiveDamage G p Amount).2.2 = [] ∧
    ¬ Forwards (APlant.ReceiveDamage G p Amount).2.2 OnDeactivated ∧
    ∀ Amounts : List Int,
      APlant.ReceiveDamages G p Amounts = (p, List.replicate Amounts.length false, []) := by
  rw [APlant.ReceiveDamage_of_not_finished G p Amount hplanting]
  exact ⟨rfl, rfl, rfl, rfl, rfl, not_Forwards_nil _,
    APlant.ReceiveDamages_of_not_finished G p hplanting⟩

/-- Witness of C21: a grown plant of Health 3 that has not finished planting
receives damage 5: the call returns false, Health is still 3 and nothing is
broadcast or forwarded. -/
theorem ReceiveDamage_noop_before_planting_finished_witness :
    (APlant.ReceiveDamage SampleGridLibrary
      { SamplePlant 3 0 1 with bIsFinishedPlanting := false } 5).2.1 = false ∧
    (APlant.ReceiveDamage SampleGridLibrary
      { SamplePlant 3 0 1 with bIsFinishedPlanting := false } 5).1.Health = 3 ∧
    (APlant.ReceiveDamage SampleGridLibrary
      { SamplePlant 3 0 1 with bIsFinishedPlanting := false } 5).2.2 = [] := by
  have h := ReceiveDamage_noop_before_planting_finished SampleGridLibrary
    { SamplePlant 3 0 1 with bIsFinishedPlanting := false } 5 (by decide)
  exact ⟨h.1, h.2.1, h.2.2.2.1⟩

end Syrup
